import Mathlib

/-!
# Verification of the restate partition-processor specification

A shallow embedding of the parts of the restate repository that the
specification's claims are about, together with proofs settling each claim.

Components embedded:
* the versioned metadata store contract (get / get_version / put / delete with
  preconditions) and the concurrent read-increment-CAS writer discipline,
* the journal table keying (src/src/storage_api/src/journal_table/mod.rs) and
  the `JournalEntryId` conversions (crates/storage-api/src/storage.rs),
* the partition processor command loop (src/src/worker/src/partition.rs),
* the RocksDB shutdown sequence (crates/rocksdb/src/lib.rs),
* the storage codec layer for the invocation-status record: the current V2
  layout, the legacy V1 layout, and the conversions of their leaf types
  (crates/storage-api/src/storage.rs).
-/

set_option maxHeartbeats 1000000

namespace Restate

/-! ## Versioned metadata store (C1, C2)

Modelled from the spec: the local metadata store implementation
(crates/metadata-store/src/local) is not under src/; only its tests are.
The model follows §4.1 of the spec: a mapping from string keys to versioned
values; `put(key, value, precondition)` writes `value` (whose `version()` is
authoritative for the stored version) if the precondition holds and fails with
`FailedPrecondition` otherwise; `delete` follows the same precondition
semantics. -/

/-- A versioned value as stored in the metadata store; mirrors the `Value`
struct of the tests (a `Version` plus an opaque payload). `Version.MIN = 1`
and `Version.INVALID = 0`. -/
structure MetaValue where
  version : Nat
  payload : String
  deriving DecidableEq, Repr

/-- Metadata store state: an association list from keys to versioned values. -/
def MetaStore := List (String × MetaValue)

instance : DecidableEq MetaStore := by unfold MetaStore; infer_instance

/-- The empty metadata store. -/
def MetaStore.empty : MetaStore := []

/-- The `get(key)`: the current value with its version, or absent. -/
def MetaStore.get (s : MetaStore) (k : String) : Option MetaValue :=
  match s with
  | [] => none
  | (k', v) :: rest => if k' = k then some v else MetaStore.get rest k

/-- The `get_version(key)`: the current version only. -/
def MetaStore.getVersion (s : MetaStore) (k : String) : Option Nat :=
  (s.get k).map MetaValue.version

/-- Write preconditions of the metadata store: `None` (unconditional),
`DoesNotExist`, `MatchesVersion(v)`. -/
inductive Precondition where
  | none
  | doesNotExist
  | matchesVersion (v : Nat)
  deriving DecidableEq, Repr

/-- Outcome of a `put` or `delete`: the updated store, or `FailedPrecondition`. -/
inductive WriteResult where
  | ok (s : MetaStore)
  | failedPrecondition
  deriving DecidableEq

/-- Does the precondition hold against the value currently stored under the
key (`cur = none` meaning the key is absent)? -/
def Precondition.holds (p : Precondition) (cur : Option MetaValue) : Bool :=
  match p with
  | .none => true
  | .doesNotExist => cur.isNone
  | .matchesVersion w =>
    match cur with
    | Option.none => false
    | some v => v.version = w

/-- Store `v` under `k`, replacing any existing binding. -/
def MetaStore.insert (s : MetaStore) (k : String) (v : MetaValue) : MetaStore :=
  match s with
  | [] => [(k, v)]
  | (k', v') :: rest =>
    if k' = k then (k, v) :: rest else (k', v') :: MetaStore.insert rest k v

/-- Remove the binding of `k`, if any. -/
def MetaStore.remove (s : MetaStore) (k : String) : MetaStore :=
  match s with
  | [] => []
  | (k', v') :: rest =>
    if k' = k then rest else (k', v') :: MetaStore.remove rest k

/-- The `put(key, value, precondition)`: writes if the precondition holds against
the current state; fails with `FailedPrecondition` otherwise. The stored
version is the version carried by `value` (spec §4.1 invariant (i)). -/
def MetaStore.put (s : MetaStore) (k : String) (v : MetaValue)
    (p : Precondition) : WriteResult :=
  if p.holds (s.get k) then .ok (s.insert k v) else .failedPrecondition

/-- The `delete(key, precondition)`: same precondition semantics as `put`. -/
def MetaStore.delete (s : MetaStore) (k : String) (p : Precondition) :
    WriteResult :=
  if p.holds (s.get k) then .ok (s.remove k) else .failedPrecondition

theorem MetaStore.get_insert_self (s : MetaStore) (k : String) (v : MetaValue) :
    (s.insert k v).get k = some v := by
  induction s with
  | nil => simp [insert, get]
  | cons hd tl ih =>
    obtain ⟨k', v'⟩ := hd
    by_cases h : k' = k
    · simp [insert, get, h]
    · simp [insert, get, h, ih]

/-- C1: metadata store compare-and-set semantics. `put(k, v, DoesNotExist)`
fails with `FailedPrecondition` when `k` is present; `put(k, v,
MatchesVersion(w))` fails when the stored version of `k` differs from `w` and
succeeds when it matches; `delete` follows the same precondition semantics; and
after any successful `put(k, v, _)`, `get(k)` returns `v` and `get_version(k)`
returns `v.version()`. -/
theorem metadata_store_cas_semantics (s : MetaStore) (k : String)
    (v : MetaValue) (w : Nat) :
    ((s.get k).isSome → s.put k v .doesNotExist = .failedPrecondition) ∧
    (s.getVersion k ≠ some w →
      s.put k v (.matchesVersion w) = .failedPrecondition) ∧
    (s.getVersion k = some w →
      s.put k v (.matchesVersion w) = .ok (s.insert k v)) ∧
    ((s.get k).isSome → s.delete k .doesNotExist = .failedPrecondition) ∧
    (s.getVersion k ≠ some w →
      s.delete k (.matchesVersion w) = .failedPrecondition) ∧
    (s.getVersion k = some w →
      s.delete k (.matchesVersion w) = .ok (s.remove k)) ∧
    (∀ (p : Precondition) (s' : MetaStore), s.put k v p = .ok s' →
      s'.get k = some v ∧ s'.getVersion k = some v.version) := by
  have hver : ∀ h : s.getVersion k = some w,
      Precondition.holds (.matchesVersion w) (s.get k) = true := by
    intro h
    unfold MetaStore.getVersion at h
    cases hg : s.get k with
    | none => rw [hg] at h; simp at h
    | some u =>
      rw [hg] at h
      simp at h
      simp [Precondition.holds, h]
  have hver' : ∀ h : s.getVersion k ≠ some w,
      Precondition.holds (.matchesVersion w) (s.get k) = false := by
    intro h
    unfold MetaStore.getVersion at h
    cases hg : s.get k with
    | none => simp [Precondition.holds]
    | some u =>
      rw [hg] at h
      simp at h
      simp [Precondition.holds, h]
  refine ⟨?_, ?_, ?_, ?_, ?_, ?_, ?_⟩
  · intro h
    unfold MetaStore.put
    have : Precondition.holds .doesNotExist (s.get k) = false := by
      simp [Precondition.holds, Option.isNone_iff_eq_none]
      exact h
    simp [this]
  · intro h
    unfold MetaStore.put
    simp [hver' h]
  · intro h
    unfold MetaStore.put
    simp [hver h]
  · intro h
    unfold MetaStore.delete
    have : Precondition.holds .doesNotExist (s.get k) = false := by
      simp [Precondition.holds, Option.isNone_iff_eq_none]
      exact h
    simp [this]
  · intro h
    unfold MetaStore.delete
    simp [hver' h]
  · intro h
    unfold MetaStore.delete
    simp [hver h]
  · intro p s' h
    unfold MetaStore.put at h
    by_cases hp : Precondition.holds p (s.get k) = true
    · simp [hp] at h
      subst h
      refine ⟨MetaStore.get_insert_self s k v, ?_⟩
      unfold MetaStore.getVersion
      rw [MetaStore.get_insert_self s k v]
      rfl
    · simp [hp] at h

/-- Witness for C1: the concrete CAS scenario from the spec, on the store
holding `"k" → {version=1, "v1"}`. -/
theorem metadata_store_cas_semantics_witness :
    (MetaStore.put [("k", ⟨1, "v1"⟩)] "k" ⟨2, "v2"⟩ .doesNotExist =
      .failedPrecondition) ∧
    (MetaStore.put [("k", ⟨1, "v1"⟩)] "k" ⟨2, "v2"⟩ (.matchesVersion 0) =
      .failedPrecondition) ∧
    (MetaStore.put [("k", ⟨1, "v1"⟩)] "k" ⟨2, "v2"⟩ (.matchesVersion 1) =
      .ok [("k", ⟨2, "v2"⟩)]) ∧
    (MetaStore.get [("k", (⟨2, "v2"⟩ : MetaValue))] "k" = some ⟨2, "v2"⟩ ∧
      MetaStore.getVersion [("k", (⟨2, "v2"⟩ : MetaValue))] "k" = some 2) := by
  have h1 := metadata_store_cas_semantics [("k", ⟨1, "v1"⟩)] "k" ⟨2, "v2"⟩ 1
  have h0 := metadata_store_cas_semantics [("k", ⟨1, "v1"⟩)] "k" ⟨2, "v2"⟩ 0
  refine ⟨h1.1 (by decide), h0.2.1 (by decide), ?_, ?_⟩
  · have := h1.2.2.1 (by decide)
    simpa [MetaStore.insert] using this
  · have hput : MetaStore.put [("k", ⟨1, "v1"⟩)] "k" ⟨2, "v2"⟩
        (.matchesVersion 1) = .ok [("k", ⟨2, "v2"⟩)] := by
      have := h1.2.2.1 (by decide)
      simpa [MetaStore.insert] using this
    exact h1.2.2.2.2.2.2 (.matchesVersion 1) [("k", ⟨2, "v2"⟩)] hput

/-! ## Concurrent version bump (C2)

The spec's §4.1 contract stores the version carried by the written value, so
an unconditional `put` can lower `get_version`; monotonicity holds for the
read-increment-CAS discipline the tests use. The discipline is modelled as a
transition system over one key: each writer reads the current version, then
attempts `put(default, DoesNotExist)` when it observed the key absent or
`put(observed.next_version(), MatchesVersion(observed))` otherwise, retrying
from the read on `FailedPrecondition` and stopping on success. -/

/-- C2 counterexample: `get_version` can decrease across operations of the
§4.1 contract. After `put("k", {version=2}, None)` the version is 2; a second
unconditional `put("k", {version=1}, None)` succeeds and drops it back to 1. -/
theorem get_version_can_decrease :
    MetaStore.put MetaStore.empty "k" ⟨2, "a"⟩ .none =
      .ok [("k", ⟨2, "a"⟩)] ∧
    MetaStore.getVersion [("k", (⟨2, "a"⟩ : MetaValue))] "k" = some 2 ∧
    MetaStore.put [("k", ⟨2, "a"⟩)] "k" ⟨1, "b"⟩ .none =
      .ok [("k", ⟨1, "b"⟩)] ∧
    MetaStore.getVersion [("k", (⟨1, "b"⟩ : MetaValue))] "k" = some 1 ∧
    ¬ (2 : Nat) ≤ 1 := by
  refine ⟨?_, by decide, ?_, by decide, by decide⟩
  · rfl
  · rfl

/-- State of one writer in the read-increment-CAS loop of the
`concurrent_operations` test: about to read, holding an observed version
(`none` = key absent), or finished. -/
inductive WriterState where
  | idle
  | observed (obs : Option Nat)
  | done
  deriving DecidableEq, Repr

/-- Configuration of the concurrent bump system on a single key: the stored
version of the key (`none` = absent; the payload is irrelevant to versions)
and the state of each writer. -/
structure BumpConfig where
  store : Option Nat
  writers : List WriterState
  deriving DecidableEq, Repr

/-- One linearized step of the concurrent bump system. Each writer's CAS
attempt follows the test loop: `get`, then `put(Value::default(),
DoesNotExist)` on an absent read (`Value::default()` has `version = MIN = 1`)
or `put(value.next_version(), MatchesVersion(previous_version))` on a present
read; a `FailedPrecondition` sends the writer back to the read. -/
inductive BumpStep : BumpConfig → BumpConfig → Prop where
  | read (c : BumpConfig) (i : Nat) (h : c.writers[i]? = some .idle) :
      BumpStep c ⟨c.store, c.writers.set i (.observed c.store)⟩
  | putNewOk (c : BumpConfig) (i : Nat)
      (h : c.writers[i]? = some (.observed none)) (hs : c.store = none) :
      BumpStep c ⟨some 1, c.writers.set i .done⟩
  | putNewFail (c : BumpConfig) (i : Nat)
      (h : c.writers[i]? = some (.observed none)) (hs : c.store ≠ none) :
      BumpStep c ⟨c.store, c.writers.set i .idle⟩
  | putCasOk (c : BumpConfig) (i : Nat) (w : Nat)
      (h : c.writers[i]? = some (.observed (some w)))
      (hs : c.store = some w) :
      BumpStep c ⟨some (w + 1), c.writers.set i .done⟩
  | putCasFail (c : BumpConfig) (i : Nat) (w : Nat)
      (h : c.writers[i]? = some (.observed (some w)))
      (hs : c.store ≠ some w) :
      BumpStep c ⟨c.store, c.writers.set i .idle⟩

/-- Reachability in the concurrent bump system. -/
def BumpReach : BumpConfig → BumpConfig → Prop :=
  Relation.ReflTransGen BumpStep

/-- Number of writers that have finished. -/
def doneCount (ws : List WriterState) : Nat :=
  ws.countP (fun w => w = .done)

/-- The version stored under the key always equals the number of finished
writers (absent while none finished). -/
def BumpInv (c : BumpConfig) : Prop :=
  c.store = if doneCount c.writers = 0 then none else some (doneCount c.writers)

theorem doneCount_set_eq (ws : List WriterState) (i : Nat) (x : WriterState)
    (hx : ws[i]? = some x) (hxd : x ≠ .done) (y : WriterState) :
    doneCount (ws.set i y) =
      doneCount ws + (if y = .done then 1 else 0) := by
  induction ws generalizing i with
  | nil => simp at hx
  | cons hd tl ih =>
    cases i with
    | zero =>
      simp at hx
      subst hx
      by_cases hy : y = .done
      · simp [doneCount, List.countP_cons, hy, hxd]
      · simp [doneCount, List.countP_cons, hy, hxd]
    | succ j =>
      simp at hx
      have := ih j hx
      by_cases hhd : hd = .done <;>
        simp [doneCount, List.countP_cons, hhd, List.set] at this ⊢ <;>
        omega

theorem bumpStep_preserves_inv (c c' : BumpConfig) (hstep : BumpStep c c')
    (hinv : BumpInv c) : BumpInv c' := by
  unfold BumpInv at hinv ⊢
  cases hstep with
  | read i h =>
    have hne : WriterState.idle ≠ WriterState.done := by decide
    have hcnt := doneCount_set_eq c.writers i .idle h hne (.observed c.store)
    simp at hcnt
    simpa [hcnt] using hinv
  | putNewOk i h hs =>
    have hne : WriterState.observed none ≠ WriterState.done := by decide
    have hcnt := doneCount_set_eq c.writers i (.observed none) h hne .done
    simp at hcnt
    rw [hs] at hinv
    by_cases h0 : doneCount c.writers = 0
    · simp [hcnt, h0]
    · simp [h0] at hinv
  | putNewFail i h hs =>
    have hne : WriterState.observed none ≠ WriterState.done := by decide
    have hcnt := doneCount_set_eq c.writers i (.observed none) h hne .idle
    simp at hcnt
    simpa [hcnt] using hinv
  | putCasOk i w h hs =>
    have hne : WriterState.observed (some w) ≠ WriterState.done := by simp
    have hcnt := doneCount_set_eq c.writers i (.observed (some w)) h hne .done
    simp at hcnt
    rw [hs] at hinv
    by_cases h0 : doneCount c.writers = 0
    · simp [h0] at hinv
    · simp [h0] at hinv
      simp [hcnt, h0, hinv]
  | putCasFail i w h hs =>
    have hne : WriterState.observed (some w) ≠ WriterState.done := by simp
    have hcnt := doneCount_set_eq c.writers i (.observed (some w)) h hne .idle
    simp at hcnt
    simpa [hcnt] using hinv

theorem bumpReach_preserves_inv (c c' : BumpConfig) (h : BumpReach c c')
    (hinv : BumpInv c) : BumpInv c' := by
  induction h with
  | refl => exact hinv
  | tail _ hstep ih => exact bumpStep_preserves_inv _ _ hstep ih

/-- The stored version never decreases across a single step. -/
theorem bumpStep_version_mono (c c' : BumpConfig) (hstep : BumpStep c c')
    (w : Nat) (h : c.store = some w) : ∃ w', c'.store = some w' ∧ w ≤ w' := by
  cases hstep with
  | read i _ => exact ⟨w, h, le_refl w⟩
  | putNewOk i _ hs => rw [hs] at h; simp at h
  | putNewFail i _ _ => exact ⟨w, h, le_refl w⟩
  | putCasOk i v _ hs =>
    rw [hs] at h
    simp at h
    exact ⟨v + 1, rfl, by omega⟩
  | putCasFail i _ _ _ => exact ⟨w, h, le_refl w⟩

theorem bumpStep_preserves_length (c c' : BumpConfig) (hstep : BumpStep c c') :
    c'.writers.length = c.writers.length := by
  cases hstep <;> simp

/-- C2 (amended): under the read-increment-CAS discipline of the
`concurrent_operations` test, the stored version never decreases along any
step, and in every execution of `n` writers that starts from an absent key and
ends with all writers finished, `get_version` of the key is exactly `n`. The
claim as literally stated fails for arbitrary operation sequences
(see the counterexample): an unconditional `put` stores the version carried by
the written value, which may be lower than the stored one. -/
theorem concurrent_bump_versions (n : Nat) (c : BumpConfig)
    (hreach : BumpReach ⟨none, List.replicate n .idle⟩ c)
    (hdone : ∀ w ∈ c.writers, w = .done) (hn : 0 < n) :
    c.store = some n ∧
    (∀ c' c'' : BumpConfig, BumpStep c' c'' →
      ∀ w : Nat, c'.store = some w → ∃ w', c''.store = some w' ∧ w ≤ w') := by
  refine ⟨?_, fun c' c'' hs w h => bumpStep_version_mono c' c'' hs w h⟩
  have hlen : c.writers.length = n := by
    have hall : ∀ b : BumpConfig,
        BumpReach ⟨none, List.replicate n .idle⟩ b →
        b.writers.length = n := by
      intro b hr
      induction hr with
      | refl => simp
      | tail _ hstep ih => rw [bumpStep_preserves_length _ _ hstep]; exact ih
    exact hall c hreach
  have hinv0 : BumpInv ⟨none, List.replicate n .idle⟩ := by
    have hz : doneCount (List.replicate n WriterState.idle) = 0 := by
      unfold doneCount
      rw [List.countP_eq_zero]
      intro w hw
      rw [List.eq_of_mem_replicate hw]
      decide
    unfold BumpInv
    simp [hz]
  have hinv := bumpReach_preserves_inv _ _ hreach hinv0
  unfold BumpInv at hinv
  have hcnt : doneCount c.writers = n := by
    unfold doneCount
    calc c.writers.countP (fun w => w = .done)
        = c.writers.length := by
          apply List.countP_eq_length.mpr
          intro w hw
          simp [hdone w hw]
      _ = n := hlen
  rw [hcnt] at hinv
  have : n ≠ 0 := Nat.pos_iff_ne_zero.mp hn
  simpa [this] using hinv

/-- Witness for C2 (amended): a two-writer execution, run to completion. -/
theorem concurrent_bump_versions_witness :
    BumpConfig.store ⟨some 2, [.done, .done]⟩ = some 2 := by
  have hsteps : BumpReach ⟨none, List.replicate 2 .idle⟩
      ⟨some 2, [.done, .done]⟩ := by
    have s1 : BumpStep ⟨none, [.idle, .idle]⟩
        ⟨none, [.observed none, .idle]⟩ :=
      BumpStep.read ⟨none, [.idle, .idle]⟩ 0 (by decide)
    have s2 : BumpStep ⟨none, [.observed none, .idle]⟩
        ⟨some 1, [.done, .idle]⟩ :=
      BumpStep.putNewOk ⟨none, [.observed none, .idle]⟩ 0 (by decide) rfl
    have s3 : BumpStep ⟨some 1, [.done, .idle]⟩
        ⟨some 1, [.done, .observed (some 1)]⟩ :=
      BumpStep.read ⟨some 1, [.done, .idle]⟩ 1 (by decide)
    have s4 : BumpStep ⟨some 1, [.done, .observed (some 1)]⟩
        ⟨some 2, [.done, .done]⟩ :=
      BumpStep.putCasOk ⟨some 1, [.done, .observed (some 1)]⟩ 1 1
        (by decide) rfl
    exact Relation.ReflTransGen.head s1 (Relation.ReflTransGen.head s2
      (Relation.ReflTransGen.head s3 (Relation.ReflTransGen.single s4)))
  have h := concurrent_bump_versions 2 ⟨some 2, [.done, .done]⟩ hsteps
    (by decide) (by decide)
  exact h.1

/-! ## RocksDB shutdown sequence (C5)

Embedding of `RocksDb::shutdown` (crates/rocksdb/src/lib.rs, lines 108-149):
it flushes the WAL, computes the open column families matched by some
`flush_on_shutdown` pattern, and — only if that set is non-empty — flushes
those memtables and cancels all background work; with an empty set it logs and
returns early. -/

/-- The observable actions `RocksDb::shutdown` performs, in order. -/
inductive ShutdownAction where
  | flushWal
  | flushMemtables (cfs : List String)
  | cancelAllBackgroundWork
  deriving DecidableEq, Repr

/-- The fields of `RocksDb` that `shutdown` consults: the open column
families (`self.cfs()`) and the flush-on-shutdown patterns, each a matcher on
column-family names. -/
structure RocksDbState where
  cfs : List String
  flushOnShutdown : List (String → Bool)

/-- The column families to flush on shutdown: every open column family
matched by at least one `flush_on_shutdown` pattern. -/
def RocksDbState.cfsToFlush (db : RocksDbState) : List String :=
  db.cfs.filter (fun c => db.flushOnShutdown.any (fun matcher => matcher c))

/-- The sequence of actions performed by `RocksDb::shutdown`: flush the WAL;
then, if no column family is to be flushed, return early; otherwise flush the
matched memtables and cancel all background work. -/
def RocksDbState.shutdownTrace (db : RocksDbState) : List ShutdownAction :=
  .flushWal ::
    (if db.cfsToFlush.isEmpty then []
     else [.flushMemtables db.cfsToFlush, .cancelAllBackgroundWork])

/-- C5 counterexample: for a database with no flush-on-shutdown column
families, `shutdown()` flushes the WAL and returns early — it does not cancel
background work, so the claimed full sequence does not hold for every
database. -/
theorem shutdown_skips_cancel_without_flush_cfs :
    RocksDbState.shutdownTrace ⟨["data"], []⟩ = [.flushWal] ∧
    ShutdownAction.cancelAllBackgroundWork ∉
      RocksDbState.shutdownTrace ⟨["data"], []⟩ := by
  constructor
  · rfl
  · intro h
    rw [show RocksDbState.shutdownTrace ⟨["data"], []⟩ = [.flushWal] from rfl]
      at h
    simp at h

/-- C5 (amended): `shutdown()` always flushes the WAL first; when at least one
open column family matches a flush-on-shutdown pattern it then flushes exactly
the matched memtables and finally cancels all background work, in that order;
when no column family matches it returns right after the WAL flush, without
flushing memtables or cancelling background work. -/
theorem shutdown_sequence (db : RocksDbState) :
    (db.cfsToFlush ≠ [] →
      db.shutdownTrace =
        [.flushWal, .flushMemtables db.cfsToFlush,
          .cancelAllBackgroundWork]) ∧
    (db.cfsToFlush = [] → db.shutdownTrace = [.flushWal]) := by
  constructor
  · intro h
    unfold RocksDbState.shutdownTrace
    rw [if_neg]
    simpa using h
  · intro h
    unfold RocksDbState.shutdownTrace
    rw [if_pos]
    simpa using h

/-- Witness for C5 (amended): a database whose single flush-on-shutdown
pattern matches its open `"data"` family runs the full sequence, and one with
no patterns stops after the WAL flush. -/
theorem shutdown_sequence_witness :
    RocksDbState.shutdownTrace ⟨["data"], [fun c => c = "data"]⟩ =
      [.flushWal, .flushMemtables ["data"], .cancelAllBackgroundWork] ∧
    RocksDbState.shutdownTrace ⟨["data"], []⟩ = [.flushWal] := by
  constructor
  · have h := (shutdown_sequence ⟨["data"], [fun c => c = "data"]⟩).1
      (by intro hc; simp [RocksDbState.cfsToFlush] at hc)
    rw [h]
    rfl
  · exact (shutdown_sequence ⟨["data"], []⟩).2 (by rfl)

/-! ## Partition processor command loop (C4)

Embedding of `PartitionProcessor::run` (src/src/worker/src/partition.rs):
each command from the stream is dispatched: `Commit` applies the fsm and its
effects, `Leader`/`Follower` only log, and `ApplySnapshot` / `CreateSnapshot`
hit `unimplemented!("Not supported yet.")`, which panics.

Modelled from the spec: the `Fsm` state machine (`crate::fsm`) is not under
src/; the fsm state, commands, effects and `on_apply` are abstracted as
parameters — the claim only concerns the dispatch. -/

/-- The commands the consensus stream can deliver to a partition processor
(`consensus::Command<fsm::Command>`). -/
inductive ConsensusCommand (FsmCommand : Type) where
  | commit (cmd : FsmCommand)
  | leader
  | follower
  | applySnapshot
  | createSnapshot

/-- Outcome of handling one command in the `run` loop: continue with an
updated fsm state (having dispatched the returned effects), or panic with a
message, tearing the processor down. -/
inductive LoopOutcome (Fsm Effects : Type) where
  | continues (fsm : Fsm) (effects : Effects)
  | panicked (msg : String)

/-- One iteration of the `PartitionProcessor::run` match: `Commit` feeds the
command to `Fsm::on_apply` and applies the effects; `Leader` and `Follower`
log and leave the fsm untouched; both snapshot commands are
`unimplemented!("Not supported yet.")`. -/
def handleCommand {Fsm FsmCommand Effects : Type}
    (onApply : Fsm → FsmCommand → Fsm × Effects) (noEffects : Effects)
    (fsm : Fsm) : ConsensusCommand FsmCommand → LoopOutcome Fsm Effects
  | .commit cmd => .continues (onApply fsm cmd).1 (onApply fsm cmd).2
  | .leader => .continues fsm noEffects
  | .follower => .continues fsm noEffects
  | .applySnapshot => .panicked "not implemented: Not supported yet."
  | .createSnapshot => .panicked "not implemented: Not supported yet."

/-- C4: consuming an `ApplySnapshot` or `CreateSnapshot` command always fails
with the explicit unsupported panic ("not implemented: Not supported yet."),
for every fsm state and every fsm semantics; in particular it never continues
the loop, so it neither silently succeeds nor ignores the command. -/
theorem snapshot_commands_unsupported {Fsm FsmCommand Effects : Type}
    (onApply : Fsm → FsmCommand → Fsm × Effects) (noEffects : Effects)
    (fsm : Fsm) :
    handleCommand onApply noEffects fsm .applySnapshot =
      .panicked "not implemented: Not supported yet." ∧
    handleCommand onApply noEffects fsm .createSnapshot =
      .panicked "not implemented: Not supported yet." ∧
    (∀ (fsm' : Fsm) (effects : Effects),
      handleCommand onApply noEffects fsm .applySnapshot ≠
        .continues fsm' effects) ∧
    (∀ (fsm' : Fsm) (effects : Effects),
      handleCommand onApply noEffects fsm .createSnapshot ≠
        .continues fsm' effects) := by
  refine ⟨rfl, rfl, ?_, ?_⟩ <;> intro fsm' effects h <;>
    simp [handleCommand] at h

/-- Witness for C4: both snapshot commands on a concrete fsm. -/
theorem snapshot_commands_unsupported_witness :
    handleCommand (fun (s : Nat) (_ : Nat) => (s + 1, 0)) 0 0 .applySnapshot =
      .panicked "not implemented: Not supported yet." ∧
    handleCommand (fun (s : Nat) (_ : Nat) => (s + 1, 0)) 0 0 .createSnapshot =
      .panicked "not implemented: Not supported yet." :=
  ⟨(snapshot_commands_unsupported (fun s _ => (s + 1, 0)) 0 0).1,
   (snapshot_commands_unsupported (fun s _ => (s + 1, 0)) 0 0).2.1⟩

/-! ## Conversion errors and decode outcomes (codec layer)

`ConversionError` mirrors `pb_conversion::ConversionError` in
crates/storage-api/src/storage.rs; `DecodeOutcome` adds an explicit `panicked`
constructor for code paths that panic instead of returning an error
(`expect`, `unimplemented!`, arithmetic overflow inside `std`). -/

/-- The `ConversionError`: missing field, unexpected enum variant, or invalid
data (the latter with its message). -/
inductive ConversionError where
  | missingField (name : String)
  | unexpectedEnumVariant (name : String) (variant : Int)
  | invalidData (msg : String)
  deriving DecidableEq, Repr

/-- The outcome of a fallible decode step: a value, a `ConversionError`, or a
panic (with the panic message). -/
inductive DecodeOutcome (α : Type) where
  | ok (a : α)
  | err (e : ConversionError)
  | panicked (msg : String)
  deriving DecidableEq, Repr

/-- Monadic bind on `DecodeOutcome`, matching the `?` operator on
`Result<_, ConversionError>` (panics propagate as panics). -/
def DecodeOutcome.bind {α β : Type} (x : DecodeOutcome α)
    (f : α → DecodeOutcome β) : DecodeOutcome β :=
  match x with
  | .ok a => f a
  | .err e => .err e
  | .panicked m => .panicked m

/-- The `option.ok_or(ConversionError::missing_field(name))?`. -/
def expectField {α : Type} (name : String) (x : Option α) : DecodeOutcome α :=
  match x with
  | some a => .ok a
  | none => .err (.missingField name)

/-! ## Journal table keying and `JournalEntryId` (C3)

The `JournalTable` trait (src/src/storage_api/src/journal_table/mod.rs)
addresses entries by `(service_id, journal_index)`; the `JournalEntryId`
conversions (crates/storage-api/src/storage.rs, lines 251-278) carry
`(partition_key, invocation_uuid, entry_index)`.

Modelled from the spec: the identifier types (`ServiceId`, `InvocationId`,
`InvocationUuid` in restate_types / restate_common) are not under src/; per
§3 a service id is a service name plus key, and an invocation id is a
partition key plus a 128-bit (16-byte) uuid. -/

/-- A service id: service name and service key (spec §3). -/
structure ServiceId where
  serviceName : String
  serviceKey : String
  deriving DecidableEq, Repr

/-- A 128-bit invocation uuid, as its 16-byte representation
(`InvocationUuid::to_bytes` / `from_slice` are mutually inverse on 16-byte
slices). -/
def InvocationUuid := { bytes : List Nat // bytes.length = 16 }

instance : DecidableEq InvocationUuid := by
  unfold InvocationUuid; infer_instance

/-- The `InvocationUuid::from_slice`: accepts exactly 16-byte slices. -/
def invocationUuidFromSlice (bytes : List Nat) : Option InvocationUuid :=
  if h : bytes.length = 16 then some ⟨bytes, h⟩ else none

/-- An invocation id: partition key plus invocation uuid (spec §3). -/
structure InvocationId where
  partitionKey : Nat
  invocationUuid : InvocationUuid
  deriving DecidableEq

/-- The protobuf `JournalEntryId` record: partition key, raw uuid bytes, and
entry index. -/
structure JournalEntryIdP where
  partitionKey : Nat
  invocationUuid : List Nat
  entryIndex : Nat
  deriving DecidableEq, Repr

/-- The domain `JournalEntryId`: an invocation id plus a journal index. -/
structure JournalEntryId where
  invocationId : InvocationId
  journalIndex : Nat
  deriving DecidableEq

/-- The `From<JournalEntryId> for protobuf JournalEntryId`: partition key,
uuid bytes, entry index. -/
def journalEntryIdEncode (value : JournalEntryId) : JournalEntryIdP :=
  { partitionKey := value.invocationId.partitionKey
    invocationUuid := value.invocationId.invocationUuid.val
    entryIndex := value.journalIndex }

/-- The `TryFrom<protobuf JournalEntryId> for JournalEntryId`: rebuilds the
invocation id from partition key and uuid bytes (failing with `InvalidData`
on a malformed uuid) and pairs it with the entry index. -/
def journalEntryIdDecode (value : JournalEntryIdP) :
    DecodeOutcome JournalEntryId :=
  match invocationUuidFromSlice value.invocationUuid with
  | some uuid =>
      .ok { invocationId := ⟨value.partitionKey, uuid⟩
            journalIndex := value.entryIndex }
  | none => .err (.invalidData "invalid invocation uuid")

/-- A journal entry of the old data model: a raw entry or a completion
(spec §3; `restate_common::types::JournalEntry` is not under src/). -/
inductive JournalEntry where
  | entry (payload : List Nat)
  | completion (payload : List Nat)
  deriving DecidableEq, Repr

/-- Journal table state: bindings from `(service_id, journal_index)` — the
key type of the `JournalTable` trait — to journal entries. -/
def JournalTableState := List ((ServiceId × Nat) × JournalEntry)

instance : DecidableEq JournalTableState := by
  unfold JournalTableState; infer_instance

/-- The empty journal table. -/
def JournalTableState.empty : JournalTableState := []

/-- The `JournalTable::put_journal_entry(service_id, journal_index,
journal_entry)`. -/
def put_journal_entry (t : JournalTableState) (service_id : ServiceId)
    (journal_index : Nat) (journal_entry : JournalEntry) :
    JournalTableState :=
  match t with
  | [] => [((service_id, journal_index), journal_entry)]
  | (k, e) :: rest =>
    if k = (service_id, journal_index) then
      ((service_id, journal_index), journal_entry) :: rest
    else (k, e) :: put_journal_entry rest service_id journal_index journal_entry

/-- The `JournalTable::get_journal_entry(service_id, journal_index)`. -/
def get_journal_entry (t : JournalTableState) (service_id : ServiceId)
    (journal_index : Nat) : Option JournalEntry :=
  match t with
  | [] => none
  | (k, e) :: rest =>
    if k = (service_id, journal_index) then some e
    else get_journal_entry rest service_id journal_index

/-- The `JournalTable::get_journal(service_id, journal_length)`: the entries of
indices `0 .. journal_length`, in index order. -/
def get_journal (t : JournalTableState) (service_id : ServiceId)
    (journal_length : Nat) : List (Option JournalEntry) :=
  (List.range journal_length).map (get_journal_entry t service_id)

/-- The `JournalTable::delete_journal(service_id, journal_length)`: removes the
entries of indices `0 .. journal_length`. -/
def delete_journal (t : JournalTableState) (service_id : ServiceId)
    (journal_length : Nat) : JournalTableState :=
  t.filter (fun b => decide (¬ (b.1.1 = service_id ∧ b.1.2 < journal_length)))

/-- An invocation together with the service id its journal is stored under:
the only handle the `JournalTable` trait offers is the service id, so every
operation "for an invocation" goes through its service id. -/
structure InvocationOnService where
  serviceId : ServiceId
  invocationId : InvocationId
  deriving DecidableEq

/-- Putting a journal entry for an invocation: the trait only accepts the
service id and the index. -/
def putForInvocation (t : JournalTableState) (inv : InvocationOnService)
    (journal_index : Nat) (e : JournalEntry) : JournalTableState :=
  put_journal_entry t inv.serviceId journal_index e

/-- Reading a journal entry for an invocation, likewise through the
service id. -/
def getForInvocation (t : JournalTableState) (inv : InvocationOnService)
    (journal_index : Nat) : Option JournalEntry :=
  get_journal_entry t inv.serviceId journal_index

/-- The all-zero 16-byte uuid. -/
def uuidZero : InvocationUuid := ⟨List.replicate 16 0, by decide⟩

/-- A second, distinct 16-byte uuid. -/
def uuidOne : InvocationUuid := ⟨1 :: List.replicate 15 0, by decide⟩

/-- C3 counterexample: journal entries are not identified by
`(invocation_id, entry_index)`. Two invocations with distinct invocation ids
but the same service id: the table state written for the first is identical
to the one written for the second, and the entry put for the first is
returned by a get for the second — `put`, `get`, `scan` and `delete` address
entries by `(service_id, journal_index)` only. -/
theorem journal_table_keyed_by_service_id :
    (⟨⟨"svc", "key"⟩, ⟨0, uuidZero⟩⟩ : InvocationOnService).invocationId ≠
      (⟨⟨"svc", "key"⟩, ⟨0, uuidOne⟩⟩ : InvocationOnService).invocationId ∧
    putForInvocation .empty ⟨⟨"svc", "key"⟩, ⟨0, uuidZero⟩⟩ 0 (.entry [7]) =
      putForInvocation .empty ⟨⟨"svc", "key"⟩, ⟨0, uuidOne⟩⟩ 0 (.entry [7]) ∧
    getForInvocation
        (putForInvocation .empty ⟨⟨"svc", "key"⟩, ⟨0, uuidZero⟩⟩ 0
          (.entry [7]))
        ⟨⟨"svc", "key"⟩, ⟨0, uuidOne⟩⟩ 0 = some (.entry [7]) := by
  refine ⟨?_, rfl, rfl⟩
  intro h
  have := congrArg (fun i => i.invocationUuid.val) h
  simp [uuidZero, uuidOne] at this

/-- C3 (amended): in crates/storage-api, a `JournalEntryId` is exactly an
invocation id (partition key + 16-byte uuid) plus an entry index, and its
protobuf conversion round-trips; but the `JournalTable` trait of
src/src/storage_api addresses entries by `(service_id, journal_index)`: its
operations for any two invocations sharing a service id read and write the
very same entries, and `get_journal`/`delete_journal` cover the dense index
prefix `0 .. journal_length`. -/
theorem journal_entry_id_and_table_keying (jid : JournalEntryId)
    (t : JournalTableState) (inv1 inv2 : InvocationOnService)
    (journal_index : Nat) (e : JournalEntry)
    (hsvc : inv1.serviceId = inv2.serviceId) :
    journalEntryIdDecode (journalEntryIdEncode jid) = .ok jid ∧
    putForInvocation t inv1 journal_index e =
      putForInvocation t inv2 journal_index e ∧
    getForInvocation t inv1 journal_index =
      getForInvocation t inv2 journal_index ∧
    get_journal t inv1.serviceId journal_index =
      (List.range journal_index).map (get_journal_entry t inv1.serviceId) := by
  refine ⟨?_, ?_, ?_, rfl⟩
  · unfold journalEntryIdDecode journalEntryIdEncode invocationUuidFromSlice
    obtain ⟨⟨pk, ⟨bytes, hlen⟩⟩, idx⟩ := jid
    simp [hlen]
  · unfold putForInvocation
    rw [hsvc]
  · unfold getForInvocation
    rw [hsvc]

/-- Witness for C3 (amended): a concrete journal entry id round-trips and the
two aliasing invocations of the counterexample share their entries. -/
theorem journal_entry_id_and_table_keying_witness :
    journalEntryIdDecode (journalEntryIdEncode ⟨⟨3, uuidZero⟩, 5⟩) =
      .ok ⟨⟨3, uuidZero⟩, 5⟩ ∧
    putForInvocation .empty ⟨⟨"svc", "key"⟩, ⟨0, uuidZero⟩⟩ 0 (.entry [7]) =
      putForInvocation .empty ⟨⟨"svc", "key"⟩, ⟨0, uuidOne⟩⟩ 0 (.entry [7]) :=
  ⟨(journal_entry_id_and_table_keying ⟨⟨3, uuidZero⟩, 5⟩ .empty
      ⟨⟨"svc", "key"⟩, ⟨0, uuidZero⟩⟩ ⟨⟨"svc", "key"⟩, ⟨0, uuidOne⟩⟩ 0
      (.entry [7]) rfl).1,
   (journal_entry_id_and_table_keying ⟨⟨3, uuidZero⟩, 5⟩ .empty
      ⟨⟨"svc", "key"⟩, ⟨0, uuidZero⟩⟩ ⟨⟨"svc", "key"⟩, ⟨0, uuidOne⟩⟩ 0
      (.entry [7]) rfl).2.1⟩

/-! ## Codec leaf types (crates/storage-api/src/storage.rs)

Domain types live in restate_types (not under src/); their structure is
pinned by the conversion code and spec §3. Protobuf `bytes` fields that the
code converts with `ByteString::try_from` (a UTF-8 check) are modelled as
strings on both sides; raw byte fields are `List Nat`. -/

/-- The outcome of an encode step: a record, or a panic. -/
inductive EncodeOutcome (α : Type) where
  | ok (a : α)
  | panicked (msg : String)
  deriving DecidableEq, Repr

/-- A 16-byte identifier payload (trace ids, rpc request ids, subscription
ids are all 128-bit values serialized as 16 bytes). -/
def Bytes16 := { bytes : List Nat // bytes.length = 16 }

instance : DecidableEq Bytes16 := by unfold Bytes16; infer_instance

/-- The all-zero 16-byte value; `PartitionProcessorRpcRequestId::default()`. -/
def bytes16Zero : Bytes16 := ⟨List.replicate 16 0, by decide⟩

/-- The `from_slice` for a 16-byte id: accepts exactly 16-byte slices. -/
def bytes16FromSlice (bytes : List Nat) : Option Bytes16 :=
  if h : bytes.length = 16 then some ⟨bytes, h⟩ else none

theorem bytes16FromSlice_toBytes (b : Bytes16) :
    bytes16FromSlice b.val = some b := by
  unfold bytes16FromSlice
  simp [b.property]

/-- The `InvocationId` byte serialization (partition key followed by the 16 uuid
bytes); `InvocationId::from_slice` rejects any other shape. -/
def invocationIdToBytes (id : InvocationId) : List Nat :=
  id.partitionKey :: id.invocationUuid.val

/-- The `InvocationId::from_slice`. -/
def invocationIdFromSlice (bytes : List Nat) : Option InvocationId :=
  match bytes with
  | [] => none
  | pk :: rest =>
    match invocationUuidFromSlice rest with
    | some uuid => some ⟨pk, uuid⟩
    | none => none

theorem invocationIdFromSlice_toBytes (id : InvocationId) :
    invocationIdFromSlice (invocationIdToBytes id) = some id := by
  unfold invocationIdFromSlice invocationIdToBytes invocationUuidFromSlice
  simp [id.invocationUuid.property]

/-- The protobuf `InvocationId` record: partition key and raw uuid bytes. -/
structure InvocationIdP where
  partitionKey : Nat
  invocationUuid : List Nat
  deriving DecidableEq, Repr

/-- The `From<InvocationId> for protobuf InvocationId`. -/
def invocationIdEncode (id : InvocationId) : InvocationIdP :=
  ⟨id.partitionKey, id.invocationUuid.val⟩

/-- The `TryFrom<protobuf InvocationId> for InvocationId`: rejects malformed
uuid bytes with `InvalidData`. -/
def invocationIdDecode (p : InvocationIdP) : DecodeOutcome InvocationId :=
  match invocationUuidFromSlice p.invocationUuid with
  | some uuid => .ok ⟨p.partitionKey, uuid⟩
  | none => .err (.invalidData "invalid invocation uuid")

theorem invocationIdDecode_encode (id : InvocationId) :
    invocationIdDecode (invocationIdEncode id) = .ok id := by
  unfold invocationIdDecode invocationIdEncode invocationUuidFromSlice
  simp [id.invocationUuid.property]

/-- Virtual-object handler types (spec §3). -/
inductive VirtualObjectHandlerType where
  | shared
  | exclusive
  deriving DecidableEq, Repr

/-- Workflow handler types (spec §3). -/
inductive WorkflowHandlerType where
  | workflow
  | shared
  deriving DecidableEq, Repr

/-- The `restate_types::invocation::InvocationTarget` (spec §3). -/
inductive InvocationTarget where
  | service (name handler : String)
  | virtualObject (name handler key : String)
      (handlerTy : VirtualObjectHandlerType)
  | workflow (name handler key : String) (handlerTy : WorkflowHandlerType)
  deriving DecidableEq, Repr

/-- The protobuf `InvocationTarget` record: name, handler, key, and the
`Ty` discriminant as a raw integer. -/
structure InvocationTargetP where
  name : String
  handler : String
  key : String
  serviceAndHandlerTy : Int
  deriving DecidableEq, Repr

/-- The `invocation_target::Ty` protobuf enum. Modelled from the spec: the
generated discriminants are not under src/; 0 is the protobuf unknown
default and the five named variants follow. -/
inductive TyP where
  | service
  | virtualObjectExclusive
  | virtualObjectShared
  | workflowWorkflow
  | workflowShared
  deriving DecidableEq, Repr

/-- Discriminant of each `Ty` variant. -/
def TyP.toInt : TyP → Int
  | .service => 1
  | .virtualObjectExclusive => 2
  | .virtualObjectShared => 3
  | .workflowWorkflow => 4
  | .workflowShared => 5

/-- The `invocation_target::Ty::try_from(i32)`. -/
def tyFromInt (i : Int) : Option TyP :=
  if i = 1 then some .service
  else if i = 2 then some .virtualObjectExclusive
  else if i = 3 then some .virtualObjectShared
  else if i = 4 then some .workflowWorkflow
  else if i = 5 then some .workflowShared
  else none

/-- The `From<InvocationTarget> for protobuf InvocationTarget` (key defaults to
empty for plain services). -/
def invocationTargetEncode (t : InvocationTarget) : InvocationTargetP :=
  match t with
  | .service name handler =>
    ⟨name, handler, "", TyP.service.toInt⟩
  | .virtualObject name handler key handlerTy =>
    ⟨name, handler, key,
      (match handlerTy with
        | .shared => TyP.virtualObjectShared
        | .exclusive => TyP.virtualObjectExclusive).toInt⟩
  | .workflow name handler key handlerTy =>
    ⟨name, handler, key,
      (match handlerTy with
        | .shared => TyP.workflowShared
        | .workflow => TyP.workflowWorkflow).toInt⟩

/-- The `TryFrom<protobuf InvocationTarget> for InvocationTarget`: dispatches on
the `Ty` discriminant and fails with `UnexpectedEnumVariant` on an unknown
one. -/
def invocationTargetDecode (p : InvocationTargetP) :
    DecodeOutcome InvocationTarget :=
  match tyFromInt p.serviceAndHandlerTy with
  | some .service => .ok (.service p.name p.handler)
  | some .virtualObjectExclusive =>
    .ok (.virtualObject p.name p.handler p.key .exclusive)
  | some .virtualObjectShared =>
    .ok (.virtualObject p.name p.handler p.key .shared)
  | some .workflowWorkflow =>
    .ok (.workflow p.name p.handler p.key .workflow)
  | some .workflowShared =>
    .ok (.workflow p.name p.handler p.key .shared)
  | none => .err (.unexpectedEnumVariant "ty" p.serviceAndHandlerTy)

theorem invocationTargetDecode_encode (t : InvocationTarget) :
    invocationTargetDecode (invocationTargetEncode t) = .ok t := by
  cases t with
  | service name handler => rfl
  | virtualObject name handler key handlerTy => cases handlerTy <;> rfl
  | workflow name handler key handlerTy => cases handlerTy <;> rfl

/-- The `restate_types::invocation::Source` (spec §3): ingress rpc id,
subscription id, calling service, or internal. -/
inductive Source where
  | ingress (rpcId : Bytes16)
  | subscription (subscriptionId : Bytes16)
  | service (invocationId : InvocationId) (invocationTarget : InvocationTarget)
  | internal
  deriving DecidableEq

/-- The `source::Source` protobuf oneof. -/
inductive SourcePInner where
  | ingress (rpcId : List Nat)
  | subscription (subscriptionId : List Nat)
  | service (invocationId : Option InvocationIdP)
      (invocationTarget : Option InvocationTargetP)
  | internal
  deriving DecidableEq, Repr

/-- The protobuf `Source` record (an optional oneof). -/
structure SourceP where
  source : Option SourcePInner
  deriving DecidableEq, Repr

/-- The `From<Source> for protobuf Source`. -/
def sourceEncode (s : Source) : SourceP :=
  match s with
  | .ingress rpcId => ⟨some (.ingress rpcId.val)⟩
  | .subscription subId => ⟨some (.subscription subId.val)⟩
  | .service id target =>
    ⟨some (.service (some (invocationIdEncode id))
      (some (invocationTargetEncode target)))⟩
  | .internal => ⟨some .internal⟩

/-- The `TryFrom<protobuf Source> for Source`. A malformed ingress `rpc_id` is
silently replaced by `PartitionProcessorRpcRequestId::default()`
(`unwrap_or_default`); a malformed subscription id is a hard
`InvalidData` error; a missing nested field is a `MissingField` error. -/
def sourceDecode (p : SourceP) : DecodeOutcome Source :=
  match p.source with
  | none => .err (.missingField "source")
  | some (.ingress rpcId) =>
    .ok (.ingress ((bytes16FromSlice rpcId).getD bytes16Zero))
  | some (.subscription subId) =>
    match bytes16FromSlice subId with
    | some b => .ok (.subscription b)
    | none => .err (.invalidData "invalid subscription id")
  | some (.service invocationId invocationTarget) =>
    (expectField "invocation_id" invocationId).bind fun idp =>
      (invocationIdDecode idp).bind fun id =>
        (expectField "invocation_target" invocationTarget).bind fun tp =>
          (invocationTargetDecode tp).bind fun t =>
            .ok (.service id t)
  | some .internal => .ok .internal

theorem sourceDecode_encode (s : Source) :
    sourceDecode (sourceEncode s) = .ok s := by
  cases s with
  | ingress rpcId =>
    unfold sourceDecode sourceEncode
    simp [bytes16FromSlice_toBytes]
  | subscription subId =>
    unfold sourceDecode sourceEncode
    simp [bytes16FromSlice_toBytes]
  | service id target =>
    unfold sourceDecode sourceEncode
    simp [expectField, DecodeOutcome.bind, invocationIdDecode_encode,
      invocationTargetDecode_encode]
  | internal => rfl

/-- The `restate_types::invocation::SpanRelationCause`: a parent span id or a
linked `(trace_id, span_id)` pair. -/
inductive SpanRelationCause where
  | parent (spanId : Nat)
  | linked (traceId : Bytes16) (spanId : Nat)
  deriving DecidableEq

/-- The `span_relation::Kind` protobuf oneof. -/
inductive SpanRelationKindP where
  | parent (spanId : Nat)
  | linked (traceId : List Nat) (spanId : Nat)
  deriving DecidableEq, Repr

/-- The protobuf `SpanRelation` record. -/
structure SpanRelationP where
  kind : Option SpanRelationKindP
  deriving DecidableEq, Repr

/-- The `From<SpanRelationCause> for protobuf SpanRelation`. -/
def spanRelationEncode (c : SpanRelationCause) : SpanRelationP :=
  match c with
  | .parent spanId => ⟨some (.parent spanId)⟩
  | .linked traceId spanId => ⟨some (.linked traceId.val spanId)⟩

/-- The `TryFrom<protobuf SpanRelation> for SpanRelationCause`: a missing kind is
`MissingField "kind"`; a linked trace id needs exactly 16 bytes. -/
def spanRelationDecode (p : SpanRelationP) :
    DecodeOutcome SpanRelationCause :=
  match p.kind with
  | none => .err (.missingField "kind")
  | some (.parent spanId) => .ok (.parent spanId)
  | some (.linked traceId spanId) =>
    match bytes16FromSlice traceId with
    | some b => .ok (.linked b spanId)
    | none =>
      .err (.invalidData "trace id pb definition needs to contain exactly 16 bytes")

theorem spanRelationDecode_encode (c : SpanRelationCause) :
    spanRelationDecode (spanRelationEncode c) = .ok c := by
  cases c with
  | parent spanId => rfl
  | linked traceId spanId =>
    unfold spanRelationDecode spanRelationEncode
    simp [bytes16FromSlice_toBytes]

/-- The `restate_types::invocation::ServiceInvocationSpanContext`: an
opentelemetry span context (trace id, span id, flags, remote bit, trace
state) plus an optional relation cause. The trace flags are a `u8`; the
trace state is modelled as its header string. -/
structure SpanContext where
  traceId : Bytes16
  spanId : Nat
  traceFlags : Fin 256
  isRemote : Bool
  traceState : String
  spanRelation : Option SpanRelationCause
  deriving DecidableEq

/-- The default (empty) span context: `SpanContext::default()` inside
`ServiceInvocationSpanContext::default()`. -/
def SpanContext.default : SpanContext :=
  ⟨bytes16Zero, 0, 0, false, "", none⟩

/-- The protobuf `SpanContext` record (trace flags widened to `u32`). -/
structure SpanContextP where
  traceId : List Nat
  spanId : Nat
  traceFlags : Nat
  isRemote : Bool
  traceState : String
  spanRelation : Option SpanRelationP
  deriving DecidableEq, Repr

/-- The `From<ServiceInvocationSpanContext> for protobuf SpanContext`. -/
def spanContextEncode (c : SpanContext) : SpanContextP :=
  ⟨c.traceId.val, c.spanId, c.traceFlags.val, c.isRemote, c.traceState,
    c.spanRelation.map spanRelationEncode⟩

/-- The `TryFrom<protobuf SpanContext> for ServiceInvocationSpanContext`: checks
the 16-byte trace id and the `u8` range of the trace flags, and decodes the
optional relation. -/
def spanContextDecode (p : SpanContextP) : DecodeOutcome SpanContext :=
  match bytes16FromSlice p.traceId with
  | none =>
    .err (.invalidData "trace id pb definition needs to contain exactly 16 bytes")
  | some traceId =>
    if h : p.traceFlags < 256 then
      match p.spanRelation with
      | none =>
        .ok ⟨traceId, p.spanId, ⟨p.traceFlags, h⟩, p.isRemote, p.traceState,
          none⟩
      | some rel =>
        (spanRelationDecode rel).bind fun cause =>
          .ok ⟨traceId, p.spanId, ⟨p.traceFlags, h⟩, p.isRemote, p.traceState,
            some cause⟩
    else .err (.invalidData "trace flags do not fit u8")

theorem spanContextDecode_encode (c : SpanContext) :
    spanContextDecode (spanContextEncode c) = .ok c := by
  obtain ⟨traceId, spanId, traceFlags, isRemote, traceState, rel⟩ := c
  unfold spanContextDecode spanContextEncode
  rw [bytes16FromSlice_toBytes]
  cases rel with
  | none => simp [traceFlags.isLt]
  | some cause =>
    simp [traceFlags.isLt, spanRelationDecode_encode cause,
      DecodeOutcome.bind]

/-- The `restate_types::invocation::ServiceInvocationResponseSink`: a callback
to a calling partition processor (caller invocation id + entry index) or to
an ingress request id. -/
inductive ResponseSink where
  | partitionProcessor (caller : InvocationId) (entryIndex : Nat)
  | ingress (requestId : Bytes16)
  deriving DecidableEq

/-- The `service_invocation_response_sink::ResponseSink` protobuf oneof,
including the explicit `None` variant. -/
inductive ResponseSinkPInner where
  | partitionProcessor (caller : List Nat) (entryIndex : Nat)
  | ingress (requestId : List Nat)
  | noneSink
  deriving DecidableEq, Repr

/-- The protobuf `ServiceInvocationResponseSink` record. -/
structure ResponseSinkP where
  responseSink : Option ResponseSinkPInner
  deriving DecidableEq, Repr

/-- The `From<Option<ServiceInvocationResponseSink>> for protobuf
ServiceInvocationResponseSink` (`None` becomes the explicit `None`
variant). -/
def responseSinkEncode (s : Option ResponseSink) : ResponseSinkP :=
  match s with
  | some (.partitionProcessor caller entryIndex) =>
    ⟨some (.partitionProcessor (invocationIdToBytes caller) entryIndex)⟩
  | some (.ingress requestId) => ⟨some (.ingress requestId.val)⟩
  | none => ⟨some .noneSink⟩

/-- The `TryFrom<protobuf ServiceInvocationResponseSink> for
Option<ServiceInvocationResponseSink>`: a missing oneof is
`MissingField "response_sink"`; the caller invocation id and the ingress
request id must parse. -/
def responseSinkDecode (p : ResponseSinkP) :
    DecodeOutcome (Option ResponseSink) :=
  match p.responseSink with
  | none => .err (.missingField "response_sink")
  | some (.partitionProcessor caller entryIndex) =>
    match invocationIdFromSlice caller with
    | some id => .ok (some (.partitionProcessor id entryIndex))
    | none => .err (.invalidData "invalid invocation id")
  | some (.ingress requestId) =>
    match bytes16FromSlice requestId with
    | some b => .ok (some (.ingress b))
    | none => .err (.invalidData "invalid rpc request id")
  | some .noneSink => .ok none

theorem responseSinkDecode_encode (s : Option ResponseSink) :
    responseSinkDecode (responseSinkEncode s) = .ok s := by
  cases s with
  | none => rfl
  | some sink =>
    cases sink with
    | partitionProcessor caller entryIndex =>
      unfold responseSinkDecode responseSinkEncode
      simp [invocationIdFromSlice_toBytes]
    | ingress requestId =>
      unfold responseSinkDecode responseSinkEncode
      simp [bytes16FromSlice_toBytes]

/-- Decoding the `response_sinks` list of a status record: each element is
decoded and an element that decodes to the explicit `None` sink is rejected
with `MissingField "response_sink"` (the `transpose().ok_or(...)??` step). -/
def responseSinkListDecode (l : List ResponseSinkP) :
    DecodeOutcome (List ResponseSink) :=
  match l with
  | [] => .ok []
  | p :: rest =>
    (responseSinkDecode p).bind fun s =>
      match s with
      | none => .err (.missingField "response_sink")
      | some sink =>
        (responseSinkListDecode rest).bind fun sinks => .ok (sink :: sinks)

/-- Encoding the `response_sinks` list: each sink wrapped in `Some`. -/
def responseSinkListEncode (l : List ResponseSink) : List ResponseSinkP :=
  l.map (fun s => responseSinkEncode (some s))

theorem responseSinkListDecode_encode (l : List ResponseSink) :
    responseSinkListDecode (responseSinkListEncode l) = .ok l := by
  induction l with
  | nil => rfl
  | cons s rest ih =>
    unfold responseSinkListDecode responseSinkListEncode
    simp [responseSinkDecode_encode (some s), DecodeOutcome.bind]
    unfold responseSinkListEncode at ih
    simp [ih, DecodeOutcome.bind]

/-- The `restate_types::invocation::Header`: a name/value pair. -/
structure Header where
  name : String
  value : String
  deriving DecidableEq, Repr

/-- The protobuf `Header` record. -/
structure HeaderP where
  name : String
  value : String
  deriving DecidableEq, Repr

/-- The `From<Header> for protobuf Header`. -/
def headerEncode (h : Header) : HeaderP := ⟨h.name, h.value⟩

/-- The `TryFrom<protobuf Header> for Header` (total: `Header::new`). -/
def headerDecode (p : HeaderP) : DecodeOutcome Header := .ok ⟨p.name, p.value⟩

/-- Decoding a header list (each element is infallible here, but the code
collects `Result`s). -/
def headerListDecode (l : List HeaderP) : DecodeOutcome (List Header) :=
  match l with
  | [] => .ok []
  | p :: rest =>
    (headerDecode p).bind fun h =>
      (headerListDecode rest).bind fun hs => .ok (h :: hs)

theorem headerListDecode_encode (l : List Header) :
    headerListDecode (l.map headerEncode) = .ok l := by
  induction l with
  | nil => rfl
  | cons h rest ih =>
    unfold headerListDecode
    simp [headerDecode, headerEncode, DecodeOutcome.bind, ih]

/-- The `restate_types::invocation::ResponseResult`: terminal success bytes or
an invocation error (code + message). -/
inductive ResponseResult where
  | success (value : List Nat)
  | failure (code : Nat) (message : String)
  deriving DecidableEq, Repr

/-- The `response_result::ResponseResult` protobuf oneof. -/
inductive ResponseResultPInner where
  | responseSuccess (value : List Nat)
  | responseFailure (failureCode : Nat) (failureMessage : String)
  deriving DecidableEq, Repr

/-- The protobuf `ResponseResult` record. -/
structure ResponseResultP where
  responseResult : Option ResponseResultPInner
  deriving DecidableEq, Repr

/-- The `From<ResponseResult> for protobuf ResponseResult`. -/
def responseResultEncode (r : ResponseResult) : ResponseResultP :=
  match r with
  | .success value => ⟨some (.responseSuccess value)⟩
  | .failure code message => ⟨some (.responseFailure code message)⟩

/-- The `TryFrom<protobuf ResponseResult> for ResponseResult`: a missing oneof
is `MissingField "response_result"`. -/
def responseResultDecode (p : ResponseResultP) :
    DecodeOutcome ResponseResult :=
  match p.responseResult with
  | none => .err (.missingField "response_result")
  | some (.responseSuccess value) => .ok (.success value)
  | some (.responseFailure code message) => .ok (.failure code message)

theorem responseResultDecode_encode (r : ResponseResult) :
    responseResultDecode (responseResultEncode r) = .ok r := by
  cases r <;> rfl

/-- The `std::time::Duration`: whole seconds (a `u64`) and a sub-second
nanosecond part (strictly below `10^9`). -/
def StdDuration := { p : Nat × Nat // p.1 < 2 ^ 64 ∧ p.2 < 10 ^ 9 }

instance : DecidableEq StdDuration := by unfold StdDuration; infer_instance

/-- The `Duration::ZERO`, the protobuf default for a missing duration field. -/
def StdDuration.zero : StdDuration := ⟨(0, 0), by norm_num⟩

/-- The `Duration::MAX`. -/
def StdDuration.max : StdDuration := ⟨(2 ^ 64 - 1, 10 ^ 9 - 1), by norm_num⟩

/-- The protobuf `Duration` record: `secs: u64`, `nanos: u32`. -/
structure DurationP where
  secs : Nat
  nanos : Nat
  deriving DecidableEq, Repr

/-- The `From<std::time::Duration> for protobuf Duration` (`as_secs`,
`subsec_nanos`). -/
def durationEncode (d : StdDuration) : DurationP := ⟨d.val.1, d.val.2⟩

/-- The `TryFrom<protobuf Duration> for std::time::Duration`: calls
`Duration::new(secs, nanos)`, which carries surplus nanoseconds into the
seconds and panics when the carried seconds overflow `u64`. It never returns
a `ConversionError`. -/
def durationDecode (p : DurationP) : DecodeOutcome StdDuration :=
  let carry := p.nanos / 10 ^ 9
  if h : p.secs + carry < 2 ^ 64 then
    .ok ⟨(p.secs + carry, p.nanos % 10 ^ 9),
      ⟨h, Nat.mod_lt _ (by norm_num)⟩⟩
  else .panicked "overflow in Duration::new"

theorem durationDecode_encode (d : StdDuration) :
    durationDecode (durationEncode d) = .ok d := by
  obtain ⟨⟨secs, nanos⟩, hs, hn⟩ := d
  unfold durationDecode durationEncode
  norm_num at hs hn
  have hc : nanos / 1000000000 = 0 := Nat.div_eq_of_lt hn
  have hm : nanos % 1000000000 = nanos := Nat.mod_eq_of_lt hn
  rw [dif_pos (by norm_num; omega)]
  simp [hc, hm]

/-- The `u64` and `u32` bounds of the protobuf `Duration` fields. -/
def DurationP.wf (p : DurationP) : Prop := p.secs < 2 ^ 64 ∧ p.nanos < 2 ^ 32

/-- Is a string a well-formed textual deployment id (its form always opens
with the `dp_` tag)? Modelled from the spec: `DeploymentId` and its parser
live in restate_types, not under src/. -/
def isDeploymentIdString (s : String) : Bool :=
  s.data.take 3 = ['d', 'p', '_']

/-- A deployment id: a well-formed deployment id string. -/
def DeploymentId := { s : String // isDeploymentIdString s = true }

instance : DecidableEq DeploymentId := by unfold DeploymentId; infer_instance

/-- The `DeploymentId::from_str`: parsing a stored deployment id string.
Modelled from the spec: succeeds exactly on the well-formed form. -/
def parseDeploymentId (s : String) : Option DeploymentId :=
  if h : isDeploymentIdString s then some ⟨s, h⟩ else none

/-- A service protocol version: a closed enum; its wire representation
(`as_repr`) is a small positive integer. Modelled from the spec: the enum
lives in restate_types, not under src/. -/
def ServiceProtocolVersion := { n : Int // 1 ≤ n ∧ n ≤ 2 }

instance : DecidableEq ServiceProtocolVersion := by
  unfold ServiceProtocolVersion; infer_instance

/-- The `ServiceProtocolVersion::try_from(i32)`: accepts exactly the known
discriminants. -/
def serviceProtocolVersionFromRepr (i : Int) :
    Option ServiceProtocolVersion :=
  if h : 1 ≤ i ∧ i ≤ 2 then some ⟨i, h⟩ else none

/-- The `restate_types::deployment::PinnedDeployment`: the deployment id pinned
at first dispatch, plus the negotiated service protocol version. -/
structure PinnedDeployment where
  deploymentId : DeploymentId
  serviceProtocolVersion : ServiceProtocolVersion
  deriving DecidableEq

/-- The `derive_pinned_deployment` (crates/storage-api/src/storage.rs, lines
867-894): parses the optional stored deployment id with
`.expect("valid deployment id")` — a panic on an unparseable id — then
requires the protocol version to be present (`InvalidData` otherwise) and
known (`UnexpectedEnumVariant` otherwise). -/
def derivePinnedDeployment (deploymentId : Option String)
    (serviceProtocolVersion : Option Int) :
    DecodeOutcome (Option PinnedDeployment) :=
  match deploymentId with
  | none => .ok none
  | some s =>
    match parseDeploymentId s with
    | none => .panicked "valid deployment id"
    | some d =>
      match serviceProtocolVersion with
      | none => .err (.invalidData "service_protocol_version has not been set")
      | some v =>
        match serviceProtocolVersionFromRepr v with
        | none => .err (.unexpectedEnumVariant "service_protocol_version" v)
        | some pv => .ok (some ⟨d, pv⟩)

/-- The encode-side projection of a pinned deployment into the
`(deployment_id, service_protocol_version)` column pair. -/
def pinnedDeploymentEncode (pd : Option PinnedDeployment) :
    Option String × Option Int :=
  match pd with
  | none => (none, none)
  | some pd => (some pd.deploymentId.val, some pd.serviceProtocolVersion.val)

theorem derivePinnedDeployment_encode (pd : Option PinnedDeployment) :
    derivePinnedDeployment (pinnedDeploymentEncode pd).1
      (pinnedDeploymentEncode pd).2 = .ok pd := by
  cases pd with
  | none => rfl
  | some pd =>
    unfold derivePinnedDeployment pinnedDeploymentEncode parseDeploymentId
      serviceProtocolVersionFromRepr
    simp [pd.deploymentId.property, pd.serviceProtocolVersion.property]

/-! ## Invocation status: domain types and the V2 record (C7, C8, C9)

The domain types of crate::invocation_status_table (not under src/; their
structure is pinned by the conversion code) and the protobuf
`InvocationStatusV2` record with its two conversions
(crates/storage-api/src/storage.rs, lines 327-778). -/

/-- The `StatusTimestamps`: creation and modification times plus the four
optional transition times, all in milliseconds since epoch. -/
structure StatusTimestamps where
  creationTime : Nat
  modificationTime : Nat
  inboxedTransitionTime : Option Nat
  scheduledTransitionTime : Option Nat
  runningTransitionTime : Option Nat
  completedTransitionTime : Option Nat
  deriving DecidableEq, Repr

/-- The `JournalMetadata`: journal length and the invocation's span context. -/
structure JournalMetadata where
  length : Nat
  spanContext : SpanContext
  deriving DecidableEq

/-- The `PreFlightInvocationMetadata` (Scheduled / Inboxed statuses). -/
structure PreFlightInvocationMetadata where
  responseSinks : List ResponseSink
  timestamps : StatusTimestamps
  invocationTarget : InvocationTarget
  argument : List Nat
  source : Source
  spanContext : SpanContext
  headers : List Header
  executionTime : Option Nat
  completionRetentionDuration : StdDuration
  idempotencyKey : Option String
  deriving DecidableEq

/-- The `InFlightInvocationMetadata` (Invoked / Suspended statuses). -/
structure InFlightInvocationMetadata where
  invocationTarget : InvocationTarget
  journalMetadata : JournalMetadata
  pinnedDeployment : Option PinnedDeployment
  responseSinks : List ResponseSink
  timestamps : StatusTimestamps
  source : Source
  completionRetentionDuration : StdDuration
  idempotencyKey : Option String
  deriving DecidableEq

/-- The `CompletedInvocation`. -/
structure CompletedInvocation where
  invocationTarget : InvocationTarget
  spanContext : SpanContext
  source : Source
  idempotencyKey : Option String
  timestamps : StatusTimestamps
  responseResult : ResponseResult
  completionRetentionDuration : StdDuration
  deriving DecidableEq

/-- The `crate::invocation_status_table::InvocationStatus`: the domain invocation
status (spec §4.4 lifecycle). -/
inductive InvocationStatus where
  | scheduled (metadata : PreFlightInvocationMetadata)
  | inboxed (inboxSequenceNumber : Nat)
      (metadata : PreFlightInvocationMetadata)
  | invoked (metadata : InFlightInvocationMetadata)
  | suspended (metadata : InFlightInvocationMetadata)
      (waitingForCompletedEntries : List Nat)
  | completed (completed : CompletedInvocation)
  | free
  deriving DecidableEq

/-- The `invocation_status_v2::Status` protobuf enum. Modelled from the spec:
the generated discriminants are not under src/; 0 is the protobuf
unspecified default. -/
inductive StatusV2 where
  | unspecified
  | scheduled
  | inboxed
  | invoked
  | suspended
  | completed
  deriving DecidableEq, Repr

/-- Discriminant of each `Status` variant. -/
def StatusV2.toInt : StatusV2 → Int
  | .unspecified => 0
  | .scheduled => 1
  | .inboxed => 2
  | .invoked => 3
  | .suspended => 4
  | .completed => 5

/-- The `status.try_into().unwrap_or_default()`: an unknown discriminant falls
back to `Status::Unspecified`. -/
def statusV2FromInt (i : Int) : StatusV2 :=
  if i = 1 then .scheduled
  else if i = 2 then .inboxed
  else if i = 3 then .invoked
  else if i = 4 then .suspended
  else if i = 5 then .completed
  else .unspecified

/-- The protobuf `InvocationStatusV2` record: one flat record with an
explicit status discriminator (spec §4.3, two-version read). -/
structure InvocationStatusV2P where
  status : Int
  invocationTarget : Option InvocationTargetP
  source : Option SourceP
  spanContext : Option SpanContextP
  creationTime : Nat
  modificationTime : Nat
  inboxedTransitionTime : Option Nat
  scheduledTransitionTime : Option Nat
  runningTransitionTime : Option Nat
  completedTransitionTime : Option Nat
  responseSinks : List ResponseSinkP
  argument : Option (List Nat)
  headers : List HeaderP
  executionTime : Option Nat
  completionRetentionDuration : Option DurationP
  idempotencyKey : Option String
  inboxSequenceNumber : Option Nat
  journalLength : Nat
  deploymentId : Option String
  serviceProtocolVersion : Option Int
  waitingForCompletedEntries : List Nat
  result : Option ResponseResultP
  deriving DecidableEq

/-- The timestamp columns shared by every encoded variant. -/
def timestampsOf (s : StatusTimestamps) :
    Nat × Nat × Option Nat × Option Nat × Option Nat × Option Nat :=
  (s.creationTime, s.modificationTime, s.inboxedTransitionTime,
    s.scheduledTransitionTime, s.runningTransitionTime,
    s.completedTransitionTime)

/-- The `From<InvocationStatus> for InvocationStatusV2`
(crates/storage-api/src/storage.rs, lines 497-778): every non-Free variant
maps to one flat record; `Free` panics ("Unexpected serialization of Free
status"). -/
def invocationStatusV2Encode (value : InvocationStatus) :
    EncodeOutcome InvocationStatusV2P :=
  match value with
  | .scheduled m =>
    .ok
      { status := StatusV2.scheduled.toInt
        invocationTarget := some (invocationTargetEncode m.invocationTarget)
        source := some (sourceEncode m.source)
        spanContext := some (spanContextEncode m.spanContext)
        creationTime := m.timestamps.creationTime
        modificationTime := m.timestamps.modificationTime
        inboxedTransitionTime := m.timestamps.inboxedTransitionTime
        scheduledTransitionTime := m.timestamps.scheduledTransitionTime
        runningTransitionTime := m.timestamps.runningTransitionTime
        completedTransitionTime := m.timestamps.completedTransitionTime
        responseSinks := responseSinkListEncode m.responseSinks
        argument := some m.argument
        headers := m.headers.map headerEncode
        executionTime := m.executionTime
        completionRetentionDuration :=
          some (durationEncode m.completionRetentionDuration)
        idempotencyKey := m.idempotencyKey
        inboxSequenceNumber := none
        journalLength := 0
        deploymentId := none
        serviceProtocolVersion := none
        waitingForCompletedEntries := []
        result := none }
  | .inboxed inboxSequenceNumber m =>
    .ok
      { status := StatusV2.inboxed.toInt
        invocationTarget := some (invocationTargetEncode m.invocationTarget)
        source := some (sourceEncode m.source)
        spanContext := some (spanContextEncode m.spanContext)
        creationTime := m.timestamps.creationTime
        modificationTime := m.timestamps.modificationTime
        inboxedTransitionTime := m.timestamps.inboxedTransitionTime
        scheduledTransitionTime := m.timestamps.scheduledTransitionTime
        runningTransitionTime := m.timestamps.runningTransitionTime
        completedTransitionTime := m.timestamps.completedTransitionTime
        responseSinks := responseSinkListEncode m.responseSinks
        argument := some m.argument
        headers := m.headers.map headerEncode
        executionTime := m.executionTime
        completionRetentionDuration :=
          some (durationEncode m.completionRetentionDuration)
        idempotencyKey := m.idempotencyKey
        inboxSequenceNumber := some inboxSequenceNumber
        journalLength := 0
        deploymentId := none
        serviceProtocolVersion := none
        waitingForCompletedEntries := []
        result := none }
  | .invoked m =>
    .ok
      { status := StatusV2.invoked.toInt
        invocationTarget := some (invocationTargetEncode m.invocationTarget)
        source := some (sourceEncode m.source)
        spanContext :=
          some (spanContextEncode m.journalMetadata.spanContext)
        creationTime := m.timestamps.creationTime
        modificationTime := m.timestamps.modificationTime
        inboxedTransitionTime := m.timestamps.inboxedTransitionTime
        scheduledTransitionTime := m.timestamps.scheduledTransitionTime
        runningTransitionTime := m.timestamps.runningTransitionTime
        completedTransitionTime := m.timestamps.completedTransitionTime
        responseSinks := responseSinkListEncode m.responseSinks
        argument := none
        headers := []
        executionTime := none
        completionRetentionDuration :=
          some (durationEncode m.completionRetentionDuration)
        idempotencyKey := m.idempotencyKey
        inboxSequenceNumber := none
        journalLength := m.journalMetadata.length
        deploymentId := (pinnedDeploymentEncode m.pinnedDeployment).1
        serviceProtocolVersion := (pinnedDeploymentEncode m.pinnedDeployment).2
        waitingForCompletedEntries := []
        result := none }
  | .suspended m waitingForCompletedEntries =>
    .ok
      { status := StatusV2.suspended.toInt
        invocationTarget := some (invocationTargetEncode m.invocationTarget)
        source := some (sourceEncode m.source)
        spanContext :=
          some (spanContextEncode m.journalMetadata.spanContext)
        creationTime := m.timestamps.creationTime
        modificationTime := m.timestamps.modificationTime
        inboxedTransitionTime := m.timestamps.inboxedTransitionTime
        scheduledTransitionTime := m.timestamps.scheduledTransitionTime
        runningTransitionTime := m.timestamps.runningTransitionTime
        completedTransitionTime := m.timestamps.completedTransitionTime
        responseSinks := responseSinkListEncode m.responseSinks
        argument := none
        headers := []
        executionTime := none
        completionRetentionDuration :=
          some (durationEncode m.completionRetentionDuration)
        idempotencyKey := m.idempotencyKey
        inboxSequenceNumber := none
        journalLength := m.journalMetadata.length
        deploymentId := (pinnedDeploymentEncode m.pinnedDeployment).1
        serviceProtocolVersion := (pinnedDeploymentEncode m.pinnedDeployment).2
        waitingForCompletedEntries := waitingForCompletedEntries
        result := none }
  | .completed c =>
    .ok
      { status := StatusV2.completed.toInt
        invocationTarget := some (invocationTargetEncode c.invocationTarget)
        source := some (sourceEncode c.source)
        spanContext := some (spanContextEncode c.spanContext)
        creationTime := c.timestamps.creationTime
        modificationTime := c.timestamps.modificationTime
        inboxedTransitionTime := c.timestamps.inboxedTransitionTime
        scheduledTransitionTime := c.timestamps.scheduledTransitionTime
        runningTransitionTime := c.timestamps.runningTransitionTime
        completedTransitionTime := c.timestamps.completedTransitionTime
        responseSinks := []
        argument := none
        headers := []
        executionTime := none
        completionRetentionDuration :=
          some (durationEncode c.completionRetentionDuration)
        idempotencyKey := c.idempotencyKey
        inboxSequenceNumber := none
        journalLength := 0
        deploymentId := none
        serviceProtocolVersion := none
        waitingForCompletedEntries := []
        result := some (responseResultEncode c.responseResult) }
  | .free =>
    .panicked "Unexpected serialization of Free status. This is a bug of the invocation status table"

/-- The `TryFrom<InvocationStatusV2> for InvocationStatus`
(crates/storage-api/src/storage.rs, lines 327-495): decodes the shared
columns, then dispatches on the status discriminant
(`try_into().unwrap_or_default()`, so unknown discriminants fall to the
`Unspecified` arm and fail with `UnexpectedEnumVariant("status", raw)`). A
missing `completion_retention_duration` becomes the protobuf default
duration (0). -/
def invocationStatusV2Decode (p : InvocationStatusV2P) :
    DecodeOutcome InvocationStatus :=
  (expectField "invocation_target" p.invocationTarget).bind fun tp =>
  (invocationTargetDecode tp).bind fun invocationTarget =>
  let timestamps : StatusTimestamps :=
    ⟨p.creationTime, p.modificationTime, p.inboxedTransitionTime,
      p.scheduledTransitionTime, p.runningTransitionTime,
      p.completedTransitionTime⟩
  (expectField "source" p.source).bind fun sp =>
  (sourceDecode sp).bind fun source =>
  (responseSinkListDecode p.responseSinks).bind fun responseSinks =>
  (headerListDecode p.headers).bind fun headers =>
  match statusV2FromInt p.status with
  | .scheduled =>
    (expectField "argument" p.argument).bind fun argument =>
    (expectField "span_context" p.spanContext).bind fun scp =>
    (spanContextDecode scp).bind fun spanContext =>
    (durationDecode (p.completionRetentionDuration.getD ⟨0, 0⟩)).bind
      fun completionRetentionDuration =>
    .ok (.scheduled
      ⟨responseSinks, timestamps, invocationTarget, argument, source,
        spanContext, headers, p.executionTime, completionRetentionDuration,
        p.idempotencyKey⟩)
  | .inboxed =>
    (expectField "inbox_sequence_number" p.inboxSequenceNumber).bind
      fun inboxSequenceNumber =>
    (expectField "argument" p.argument).bind fun argument =>
    (expectField "span_context" p.spanContext).bind fun scp =>
    (spanContextDecode scp).bind fun spanContext =>
    (durationDecode (p.completionRetentionDuration.getD ⟨0, 0⟩)).bind
      fun completionRetentionDuration =>
    .ok (.inboxed inboxSequenceNumber
      ⟨responseSinks, timestamps, invocationTarget, argument, source,
        spanContext, headers, p.executionTime, completionRetentionDuration,
        p.idempotencyKey⟩)
  | .invoked =>
    (expectField "span_context" p.spanContext).bind fun scp =>
    (spanContextDecode scp).bind fun spanContext =>
    (derivePinnedDeployment p.deploymentId p.serviceProtocolVersion).bind
      fun pinnedDeployment =>
    (durationDecode (p.completionRetentionDuration.getD ⟨0, 0⟩)).bind
      fun completionRetentionDuration =>
    .ok (.invoked
      ⟨invocationTarget, ⟨p.journalLength, spanContext⟩, pinnedDeployment,
        responseSinks, timestamps, source, completionRetentionDuration,
        p.idempotencyKey⟩)
  | .suspended =>
    (expectField "span_context" p.spanContext).bind fun scp =>
    (spanContextDecode scp).bind fun spanContext =>
    (derivePinnedDeployment p.deploymentId p.serviceProtocolVersion).bind
      fun pinnedDeployment =>
    (durationDecode (p.completionRetentionDuration.getD ⟨0, 0⟩)).bind
      fun completionRetentionDuration =>
    .ok (.suspended
      ⟨invocationTarget, ⟨p.journalLength, spanContext⟩, pinnedDeployment,
        responseSinks, timestamps, source, completionRetentionDuration,
        p.idempotencyKey⟩
      p.waitingForCompletedEntries)
  | .completed =>
    (expectField "span_context" p.spanContext).bind fun scp =>
    (spanContextDecode scp).bind fun spanContext =>
    (expectField "result" p.result).bind fun rp =>
    (responseResultDecode rp).bind fun responseResult =>
    (durationDecode (p.completionRetentionDuration.getD ⟨0, 0⟩)).bind
      fun completionRetentionDuration =>
    .ok (.completed
      ⟨invocationTarget, spanContext, source, p.idempotencyKey, timestamps,
        responseResult, completionRetentionDuration⟩)
  | .unspecified => .err (.unexpectedEnumVariant "status" p.status)

theorem DecodeOutcome.bind_eq_ok {α β : Type} {x : DecodeOutcome α}
    {f : α → DecodeOutcome β} {b : β} (h : x.bind f = .ok b) :
    ∃ a, x = .ok a ∧ f a = .ok b := by
  cases x with
  | ok a => exact ⟨a, rfl, h⟩
  | err e => simp [DecodeOutcome.bind] at h
  | panicked m => simp [DecodeOutcome.bind] at h

theorem invocationStatusV2_decode_encode (s : InvocationStatus)
    (p : InvocationStatusV2P) (h : invocationStatusV2Encode s = .ok p) :
    invocationStatusV2Decode p = .ok s := by
  cases s with
  | free => simp [invocationStatusV2Encode] at h
  | scheduled m =>
    obtain ⟨sinks, ts, target, argument, source, spanContext, headers,
      executionTime, retention, idk⟩ := m
    injection h with h
    subst h
    simp [invocationStatusV2Decode, expectField, DecodeOutcome.bind,
      invocationTargetDecode_encode, sourceDecode_encode,
      responseSinkListDecode_encode, headerListDecode_encode,
      spanContextDecode_encode, durationDecode_encode,
      statusV2FromInt, StatusV2.toInt]
  | inboxed sn m =>
    obtain ⟨sinks, ts, target, argument, source, spanContext, headers,
      executionTime, retention, idk⟩ := m
    injection h with h
    subst h
    simp [invocationStatusV2Decode, expectField, DecodeOutcome.bind,
      invocationTargetDecode_encode, sourceDecode_encode,
      responseSinkListDecode_encode, headerListDecode_encode,
      spanContextDecode_encode, durationDecode_encode,
      statusV2FromInt, StatusV2.toInt]
  | invoked m =>
    obtain ⟨target, jm, pd, sinks, ts, source, retention, idk⟩ := m
    injection h with h
    subst h
    simp [invocationStatusV2Decode, expectField, DecodeOutcome.bind,
      invocationTargetDecode_encode, sourceDecode_encode,
      responseSinkListDecode_encode, headerListDecode_encode,
      spanContextDecode_encode, durationDecode_encode,
      derivePinnedDeployment_encode, statusV2FromInt, StatusV2.toInt,
      headerListDecode, responseSinkListDecode]
  | suspended m waiting =>
    obtain ⟨target, jm, pd, sinks, ts, source, retention, idk⟩ := m
    injection h with h
    subst h
    simp [invocationStatusV2Decode, expectField, DecodeOutcome.bind,
      invocationTargetDecode_encode, sourceDecode_encode,
      responseSinkListDecode_encode, headerListDecode_encode,
      spanContextDecode_encode, durationDecode_encode,
      derivePinnedDeployment_encode, statusV2FromInt, StatusV2.toInt,
      headerListDecode, responseSinkListDecode]
  | completed c =>
    obtain ⟨target, spanContext, source, idk, ts, result, retention⟩ := c
    injection h with h
    subst h
    simp [invocationStatusV2Decode, expectField, DecodeOutcome.bind,
      invocationTargetDecode_encode, sourceDecode_encode,
      responseSinkListDecode_encode, headerListDecode_encode,
      spanContextDecode_encode, durationDecode_encode,
      responseResultDecode_encode, statusV2FromInt, StatusV2.toInt,
      headerListDecode, responseSinkListDecode]

/-! ## Invocation status: the legacy V1 record (C7, C8)

The variant-tagged legacy layout (`protobuf InvocationStatus`, a `status`
oneof) and its conversions (crates/storage-api/src/storage.rs, lines 780-1299).
The write path (`From<InvocationStatusV1>`) exists only under the test-util
feature; the non-test impl panics unconditionally. -/

/-- The protobuf `JournalMeta` record. -/
structure JournalMetaP where
  length : Nat
  spanContext : Option SpanContextP
  deriving DecidableEq, Repr

/-- The `TryFrom<JournalMeta> for JournalMetadata`. -/
def journalMetaDecode (p : JournalMetaP) : DecodeOutcome JournalMetadata :=
  (expectField "span_context" p.spanContext).bind fun scp =>
    (spanContextDecode scp).bind fun spanContext =>
      .ok ⟨p.length, spanContext⟩

/-- The `From<JournalMetadata> for JournalMeta`. -/
def journalMetaEncode (m : JournalMetadata) : JournalMetaP :=
  ⟨m.length, some (spanContextEncode m.spanContext)⟩

theorem journalMetaDecode_encode (m : JournalMetadata) :
    journalMetaDecode (journalMetaEncode m) = .ok m := by
  unfold journalMetaDecode journalMetaEncode
  simp [expectField, DecodeOutcome.bind, spanContextDecode_encode]

/-- The legacy protobuf `invocation_status::Invoked` record. -/
structure InvokedP where
  invocationTarget : Option InvocationTargetP
  responseSinks : List ResponseSinkP
  deploymentId : Option String
  serviceProtocolVersion : Option Int
  journalMeta : Option JournalMetaP
  creationTime : Nat
  modificationTime : Nat
  source : Option SourceP
  completionRetentionTime : Option DurationP
  idempotencyKey : Option String
  deriving DecidableEq

/-- The legacy protobuf `invocation_status::Suspended` record. -/
structure SuspendedP where
  invocationTarget : Option InvocationTargetP
  responseSinks : List ResponseSinkP
  journalMeta : Option JournalMetaP
  deploymentId : Option String
  serviceProtocolVersion : Option Int
  creationTime : Nat
  modificationTime : Nat
  waitingForCompletedEntries : List Nat
  source : Option SourceP
  completionRetentionTime : Option DurationP
  idempotencyKey : Option String
  deriving DecidableEq

/-- The legacy protobuf `invocation_status::Inboxed` record
(`execution_time` is a plain `u64` with `0` meaning unset). -/
structure InboxedP where
  invocationTarget : Option InvocationTargetP
  inboxSequenceNumber : Nat
  responseSinks : List ResponseSinkP
  creationTime : Nat
  modificationTime : Nat
  source : Option SourceP
  spanContext : Option SpanContextP
  headers : List HeaderP
  argument : List Nat
  executionTime : Nat
  completionRetentionTime : Option DurationP
  idempotencyKey : Option String
  deriving DecidableEq

/-- The legacy protobuf `invocation_status::Completed` record: it stores no
span context and no completion retention. -/
structure CompletedP where
  invocationTarget : Option InvocationTargetP
  source : Option SourceP
  result : Option ResponseResultP
  creationTime : Nat
  modificationTime : Nat
  idempotencyKey : Option String
  deriving DecidableEq

/-- The legacy `invocation_status::Status` oneof. -/
inductive InvocationStatusV1PInner where
  | inboxed (value : InboxedP)
  | invoked (value : InvokedP)
  | suspended (value : SuspendedP)
  | completed (value : CompletedP)
  | free
  deriving DecidableEq

/-- The legacy protobuf `InvocationStatus` record. -/
structure InvocationStatusV1P where
  status : Option InvocationStatusV1PInner
  deriving DecidableEq

/-- The `TryFrom<Invoked> for InFlightInvocationMetadata` (lines 896-956): the
four transition times are not stored and decode as `None`; a missing
`completion_retention_time` decodes as the zero duration. -/
def invokedV1Decode (value : InvokedP) :
    DecodeOutcome InFlightInvocationMetadata :=
  (expectField "invocation_target" value.invocationTarget).bind fun tp =>
  (invocationTargetDecode tp).bind fun invocationTarget =>
  (derivePinnedDeployment value.deploymentId
      value.serviceProtocolVersion).bind fun pinnedDeployment =>
  (expectField "journal_meta" value.journalMeta).bind fun jmp =>
  (journalMetaDecode jmp).bind fun journalMetadata =>
  (responseSinkListDecode value.responseSinks).bind fun responseSinks =>
  (expectField "source" value.source).bind fun sp =>
  (sourceDecode sp).bind fun source =>
  (durationDecode (value.completionRetentionTime.getD ⟨0, 0⟩)).bind
    fun completionRetentionDuration =>
  .ok
    ⟨invocationTarget, journalMetadata, pinnedDeployment, responseSinks,
      ⟨value.creationTime, value.modificationTime, none, none, none, none⟩,
      source, completionRetentionDuration, value.idempotencyKey⟩

/-- The `From<InFlightInvocationMetadata> for Invoked` (lines 958-995). -/
def invokedV1Encode (value : InFlightInvocationMetadata) : InvokedP :=
  { invocationTarget := some (invocationTargetEncode value.invocationTarget)
    responseSinks := responseSinkListEncode value.responseSinks
    deploymentId := (pinnedDeploymentEncode value.pinnedDeployment).1
    serviceProtocolVersion := (pinnedDeploymentEncode value.pinnedDeployment).2
    journalMeta := some (journalMetaEncode value.journalMetadata)
    creationTime := value.timestamps.creationTime
    modificationTime := value.timestamps.modificationTime
    source := some (sourceEncode value.source)
    completionRetentionTime :=
      some (durationEncode value.completionRetentionDuration)
    idempotencyKey := value.idempotencyKey }

/-- The `TryFrom<Suspended>` (lines 997-1068): as for `Invoked`, plus the set of
waited-for entries. -/
def suspendedV1Decode (value : SuspendedP) :
    DecodeOutcome (InFlightInvocationMetadata × List Nat) :=
  (expectField "invocation_target" value.invocationTarget).bind fun tp =>
  (invocationTargetDecode tp).bind fun invocationTarget =>
  (derivePinnedDeployment value.deploymentId
      value.serviceProtocolVersion).bind fun pinnedDeployment =>
  (expectField "journal_meta" value.journalMeta).bind fun jmp =>
  (journalMetaDecode jmp).bind fun journalMetadata =>
  (responseSinkListDecode value.responseSinks).bind fun responseSinks =>
  (expectField "source" value.source).bind fun sp =>
  (sourceDecode sp).bind fun source =>
  (durationDecode (value.completionRetentionTime.getD ⟨0, 0⟩)).bind
    fun completionRetentionDuration =>
  .ok
    (⟨invocationTarget, journalMetadata, pinnedDeployment, responseSinks,
        ⟨value.creationTime, value.modificationTime, none, none, none, none⟩,
        source, completionRetentionDuration, value.idempotencyKey⟩,
      value.waitingForCompletedEntries)

/-- The `From<(InFlightInvocationMetadata, HashSet<EntryIndex>)> for Suspended`
(lines 1070-1114). -/
def suspendedV1Encode (metadata : InFlightInvocationMetadata)
    (waitingForCompletedEntries : List Nat) : SuspendedP :=
  { invocationTarget :=
      some (invocationTargetEncode metadata.invocationTarget)
    responseSinks := responseSinkListEncode metadata.responseSinks
    journalMeta := some (journalMetaEncode metadata.journalMetadata)
    deploymentId := (pinnedDeploymentEncode metadata.pinnedDeployment).1
    serviceProtocolVersion :=
      (pinnedDeploymentEncode metadata.pinnedDeployment).2
    creationTime := metadata.timestamps.creationTime
    modificationTime := metadata.timestamps.modificationTime
    waitingForCompletedEntries := waitingForCompletedEntries
    source := some (sourceEncode metadata.source)
    completionRetentionTime :=
      some (durationEncode metadata.completionRetentionDuration)
    idempotencyKey := metadata.idempotencyKey }

/-- The `TryFrom<Inboxed> for InboxedInvocation` (lines 1116-1191): transition
times decode as `None`; `execution_time = 0` decodes as `None`; a missing
`completion_retention_time` decodes as the zero duration. -/
def inboxedV1Decode (value : InboxedP) :
    DecodeOutcome (Nat × PreFlightInvocationMetadata) :=
  (expectField "invocation_target" value.invocationTarget).bind fun tp =>
  (invocationTargetDecode tp).bind fun invocationTarget =>
  (responseSinkListDecode value.responseSinks).bind fun responseSinks =>
  (expectField "source" value.source).bind fun sp =>
  (sourceDecode sp).bind fun source =>
  (expectField "span_context" value.spanContext).bind fun scp =>
  (spanContextDecode scp).bind fun spanContext =>
  (headerListDecode value.headers).bind fun headers =>
  (durationDecode (value.completionRetentionTime.getD ⟨0, 0⟩)).bind
    fun completionRetentionDuration =>
  .ok
    (value.inboxSequenceNumber,
      ⟨responseSinks,
        ⟨value.creationTime, value.modificationTime, none, none, none, none⟩,
        invocationTarget, value.argument, source, spanContext, headers,
        (if value.executionTime = 0 then none else some value.executionTime),
        completionRetentionDuration, value.idempotencyKey⟩)

/-- The `From<InboxedInvocation> for Inboxed` (lines 1193-1232): an unset
execution time is stored as `0`. -/
def inboxedV1Encode (inboxSequenceNumber : Nat)
    (metadata : PreFlightInvocationMetadata) : InboxedP :=
  { invocationTarget :=
      some (invocationTargetEncode metadata.invocationTarget)
    inboxSequenceNumber := inboxSequenceNumber
    responseSinks := responseSinkListEncode metadata.responseSinks
    creationTime := metadata.timestamps.creationTime
    modificationTime := metadata.timestamps.modificationTime
    source := some (sourceEncode metadata.source)
    spanContext := some (spanContextEncode metadata.spanContext)
    headers := metadata.headers.map headerEncode
    argument := metadata.argument
    executionTime := metadata.executionTime.getD 0
    completionRetentionTime :=
      some (durationEncode metadata.completionRetentionDuration)
    idempotencyKey := metadata.idempotencyKey }

/-- The `TryFrom<Completed> for CompletedInvocation` (lines 1234-1274): the
legacy record stores neither span context nor retention, so the decoder
substitutes the default span context and `Duration::MAX` (the sentinel that
disables the cleaner; see the comment at lines 1269-1271), and the
transition times decode as `None`. -/
def completedV1Decode (value : CompletedP) :
    DecodeOutcome CompletedInvocation :=
  (expectField "invocation_target" value.invocationTarget).bind fun tp =>
  (invocationTargetDecode tp).bind fun invocationTarget =>
  (expectField "source" value.source).bind fun sp =>
  (sourceDecode sp).bind fun source =>
  (expectField "result" value.result).bind fun rp =>
  (responseResultDecode rp).bind fun responseResult =>
  .ok
    ⟨invocationTarget, SpanContext.default, source, value.idempotencyKey,
      ⟨value.creationTime, value.modificationTime, none, none, none, none⟩,
      responseResult, StdDuration.max⟩

/-- The `From<CompletedInvocation> for Completed` (lines 1276-1299): the span
context and the completion retention duration are dropped. -/
def completedV1Encode (value : CompletedInvocation) : CompletedP :=
  { invocationTarget := some (invocationTargetEncode value.invocationTarget)
    source := some (sourceEncode value.source)
    result := some (responseResultEncode value.responseResult)
    creationTime := value.timestamps.creationTime
    modificationTime := value.timestamps.modificationTime
    idempotencyKey := value.idempotencyKey }

/-- The `TryFrom<InvocationStatus> for InvocationStatusV1` (lines 780-823): the
legacy reader (`InvocationStatusV1` is a newtype around the domain status;
the result is given unwrapped). -/
def invocationStatusV1Decode (value : InvocationStatusV1P) :
    DecodeOutcome InvocationStatus :=
  match value.status with
  | none => .err (.missingField "status")
  | some (.inboxed inboxed) =>
    (inboxedV1Decode inboxed).bind fun r => .ok (.inboxed r.1 r.2)
  | some (.invoked invoked) =>
    (invokedV1Decode invoked).bind fun m => .ok (.invoked m)
  | some (.suspended suspended) =>
    (suspendedV1Decode suspended).bind fun r => .ok (.suspended r.1 r.2)
  | some (.completed completed) =>
    (completedV1Decode completed).bind fun c => .ok (.completed c)
  | some .free => .ok .free

/-- The `From<InvocationStatusV1> for InvocationStatus` (test-util impl, lines
833-865): the legacy writer, kept only for back-compat tests; the
`Scheduled` variant cannot be represented and panics. -/
def invocationStatusV1Encode (value : InvocationStatus) :
    EncodeOutcome InvocationStatusV1P :=
  match value with
  | .inboxed inboxSequenceNumber metadata =>
    .ok ⟨some (.inboxed (inboxedV1Encode inboxSequenceNumber metadata))⟩
  | .invoked metadata => .ok ⟨some (.invoked (invokedV1Encode metadata))⟩
  | .suspended metadata waitingForCompletedEntries =>
    .ok ⟨some (.suspended
      (suspendedV1Encode metadata waitingForCompletedEntries))⟩
  | .completed completed =>
    .ok ⟨some (.completed (completedV1Encode completed))⟩
  | .free => .ok ⟨some .free⟩
  | .scheduled _ =>
    .panicked "Unexpected conversion to old InvocationStatus when using Scheduled variant. This is a bug in the table implementation."

/-! ## Claim theorems for the codec layer -/

/-- Encode-then-decode through the V2 layout (a panic while encoding
propagates). -/
def v2Roundtrip (s : InvocationStatus) : DecodeOutcome InvocationStatus :=
  match invocationStatusV2Encode s with
  | .ok p => invocationStatusV2Decode p
  | .panicked m => .panicked m

/-- Encode-then-decode through the legacy V1 layout. -/
def v1Roundtrip (s : InvocationStatus) : DecodeOutcome InvocationStatus :=
  match invocationStatusV1Encode s with
  | .ok p => invocationStatusV1Decode p
  | .panicked m => .panicked m

/-- The completion retention duration carried by a status (`Free` carries
none). -/
def retentionOf : InvocationStatus → Option StdDuration
  | .scheduled m => some m.completionRetentionDuration
  | .inboxed _ m => some m.completionRetentionDuration
  | .invoked m => some m.completionRetentionDuration
  | .suspended m _ => some m.completionRetentionDuration
  | .completed c => some c.completionRetentionDuration
  | .free => none

/-- A small concrete completed invocation (retention zero). -/
def demoCompleted : CompletedInvocation :=
  { invocationTarget := .service "greeter" "greet"
    spanContext := SpanContext.default
    source := .internal
    idempotencyKey := none
    timestamps := ⟨1, 2, none, none, none, none⟩
    responseResult := .success []
    completionRetentionDuration := StdDuration.zero }

/-- C9: the Free status is never serialized. The V2 encoder panics on
`InvocationStatus::Free` ("Unexpected serialization of Free status") and
produces a record for exactly the five non-Free variants, so any encoded
record comes from a non-Free status. -/
theorem free_status_never_serialized :
    invocationStatusV2Encode .free =
      .panicked "Unexpected serialization of Free status. This is a bug of the invocation status table" ∧
    (∀ m, ∃ p, invocationStatusV2Encode (.scheduled m) = .ok p) ∧
    (∀ sn m, ∃ p, invocationStatusV2Encode (.inboxed sn m) = .ok p) ∧
    (∀ m, ∃ p, invocationStatusV2Encode (.invoked m) = .ok p) ∧
    (∀ m w, ∃ p, invocationStatusV2Encode (.suspended m w) = .ok p) ∧
    (∀ c, ∃ p, invocationStatusV2Encode (.completed c) = .ok p) ∧
    (∀ s p, invocationStatusV2Encode s = .ok p → s ≠ .free) := by
  refine ⟨rfl, fun m => ⟨_, rfl⟩, fun sn m => ⟨_, rfl⟩, fun m => ⟨_, rfl⟩,
    fun m w => ⟨_, rfl⟩, fun c => ⟨_, rfl⟩, ?_⟩
  intro s p h hfree
  subst hfree
  simp [invocationStatusV2Encode] at h

/-- Witness for C9: encoding a concrete completed invocation succeeds and
hence that status is not Free; encoding Free panics. -/
theorem free_status_never_serialized_witness :
    (InvocationStatus.completed demoCompleted ≠ .free) ∧
    invocationStatusV2Encode .free =
      .panicked "Unexpected serialization of Free status. This is a bug of the invocation status table" := by
  have h := free_status_never_serialized
  obtain ⟨p, hp⟩ := h.2.2.2.2.2.1 demoCompleted
  exact ⟨h.2.2.2.2.2.2 (.completed demoCompleted) p hp, h.1⟩

/-- C10: decoding a stored Source record of the Ingress variant never fails
on a malformed `rpc_id`: the decoder substitutes
`PartitionProcessorRpcRequestId::default()` (`unwrap_or_default`), so the
malformed record decodes to exactly what the encoding of
`Source::Ingress(default)` decodes to, although the stored records differ —
decoded sources can differ from what was originally stored. -/
theorem ingress_rpc_id_decode_lenient (b : List Nat)
    (h : bytes16FromSlice b = none) :
    sourceDecode ⟨some (.ingress b)⟩ = .ok (.ingress bytes16Zero) ∧
    (∀ e, sourceDecode ⟨some (.ingress b)⟩ ≠ .err e) ∧
    sourceDecode ⟨some (.ingress b)⟩ =
      sourceDecode (sourceEncode (.ingress bytes16Zero)) ∧
    (⟨some (.ingress b)⟩ : SourceP) ≠ sourceEncode (.ingress bytes16Zero) := by
  have hdec : sourceDecode ⟨some (.ingress b)⟩ = .ok (.ingress bytes16Zero) := by
    unfold sourceDecode
    simp [h]
  refine ⟨hdec, ?_, ?_, ?_⟩
  · intro e he
    rw [hdec] at he
    simp at he
  · rw [hdec, sourceDecode_encode]
  · intro heq
    have hb : b = bytes16Zero.val := by
      have := congrArg SourceP.source heq
      simp [sourceEncode] at this
      exact this
    rw [hb, bytes16FromSlice_toBytes] at h
    simp at h

/-- Witness for C10: the empty byte string is not a valid rpc request id and
decodes to the default ingress source. -/
theorem ingress_rpc_id_decode_lenient_witness :
    sourceDecode ⟨some (.ingress [])⟩ = .ok (.ingress bytes16Zero) ∧
    (⟨some (.ingress [])⟩ : SourceP) ≠ sourceEncode (.ingress bytes16Zero) := by
  have h := ingress_rpc_id_decode_lenient [] (by rfl)
  exact ⟨h.1, h.2.2.2⟩

/-- C7 counterexample: the codec round-trip fails for the legacy V1 layout on
the Completed variant. Encoding the concrete completed invocation (retention
zero) as V1 and decoding it back yields retention `Duration::MAX` instead of
zero — `decode(encode(r)) ≠ r`. -/
theorem codec_v1_completed_roundtrip_fails :
    v1Roundtrip (.completed demoCompleted) =
      .ok (.completed
        { demoCompleted with completionRetentionDuration := StdDuration.max }) ∧
    v1Roundtrip (.completed demoCompleted) ≠
      .ok (.completed demoCompleted) := by
  constructor
  · rfl
  · intro h
    rw [show v1Roundtrip (.completed demoCompleted) =
        .ok (.completed
          { demoCompleted with
              completionRetentionDuration := StdDuration.max }) from rfl] at h
    injection h with h
    injection h with h
    have := congrArg CompletedInvocation.completionRetentionDuration h
    simp [demoCompleted] at this
    have := congrArg (fun d : StdDuration => d.val.1) this
    norm_num [StdDuration.max, StdDuration.zero] at this

/-- C7 (amended): `decode(encode(r)) == r` holds for the invocation-status
record in the current V2 layout for every non-Free status; in the legacy V1
layout the Completed variant does not store its span context, its completion
retention duration, or the transition times, so decoding an encoded Completed
yields the same invocation with the span context reset to the default, the
retention set to the `Duration::MAX` sentinel, and the transition times
cleared. -/
theorem invocation_status_codec_roundtrip (s : InvocationStatus)
    (c : CompletedInvocation) (h : s ≠ .free) :
    v2Roundtrip s = .ok s ∧
    v1Roundtrip (.completed c) =
      .ok (.completed
        { invocationTarget := c.invocationTarget
          spanContext := SpanContext.default
          source := c.source
          idempotencyKey := c.idempotencyKey
          timestamps := ⟨c.timestamps.creationTime,
            c.timestamps.modificationTime, none, none, none, none⟩
          responseResult := c.responseResult
          completionRetentionDuration := StdDuration.max }) := by
  constructor
  · cases hs : invocationStatusV2Encode s with
    | ok p =>
      unfold v2Roundtrip
      rw [hs]
      exact invocationStatusV2_decode_encode s p hs
    | panicked m =>
      cases s with
      | free => exact absurd rfl h
      | scheduled m' => simp [invocationStatusV2Encode] at hs
      | inboxed sn m' => simp [invocationStatusV2Encode] at hs
      | invoked m' => simp [invocationStatusV2Encode] at hs
      | suspended m' w => simp [invocationStatusV2Encode] at hs
      | completed c' => simp [invocationStatusV2Encode] at hs
  · unfold v1Roundtrip invocationStatusV1Encode invocationStatusV1Decode
      completedV1Encode completedV1Decode
    simp [expectField, DecodeOutcome.bind, invocationTargetDecode_encode,
      sourceDecode_encode, responseResultDecode_encode]

/-- Witness for C7 (amended): both conjuncts at the concrete completed
invocation. -/
theorem invocation_status_codec_roundtrip_witness :
    v2Roundtrip (.completed demoCompleted) = .ok (.completed demoCompleted) ∧
    v1Roundtrip (.completed demoCompleted) =
      .ok (.completed
        { invocationTarget := demoCompleted.invocationTarget
          spanContext := SpanContext.default
          source := demoCompleted.source
          idempotencyKey := demoCompleted.idempotencyKey
          timestamps := ⟨demoCompleted.timestamps.creationTime,
            demoCompleted.timestamps.modificationTime, none, none, none, none⟩
          responseResult := demoCompleted.responseResult
          completionRetentionDuration := StdDuration.max }) :=
  invocation_status_codec_roundtrip (.completed demoCompleted) demoCompleted
    (by intro h; simp at h)

theorem durationDecode_zero : durationDecode ⟨0, 0⟩ = .ok StdDuration.zero := by
  unfold durationDecode StdDuration.zero
  rw [dif_pos (by norm_num)]
  simp

/-- C8 counterexample: decoding a legacy V1 Completed record — which has no
`completion_retention_duration` field at all — does not substitute 0: it
substitutes `Duration::MAX`. -/
theorem legacy_completed_retention_not_zero :
    invocationStatusV1Decode ⟨some (.completed (completedV1Encode
      demoCompleted))⟩ =
      .ok (.completed
        { demoCompleted with completionRetentionDuration := StdDuration.max }) ∧
    StdDuration.max ≠ StdDuration.zero := by
  constructor
  · rfl
  · intro h
    have := congrArg (fun d : StdDuration => d.val.1) h
    norm_num [StdDuration.max, StdDuration.zero] at this

/-- C8 (amended): decoders substitute the documented default 0 for a missing
`completion_retention_duration` in the V2 layout (every variant) and for a
missing `completion_retention_time` in the legacy V1 Invoked, Suspended and
Inboxed records; the legacy V1 Completed record carries no such field and
always decodes with the `Duration::MAX` sentinel instead of 0. -/
theorem missing_retention_decodes_to_default (p : InvocationStatusV2P)
    (v : InvokedP) (sv : SuspendedP) (ib : InboxedP) (cp : CompletedP) :
    (p.completionRetentionDuration = none → ∀ s,
      invocationStatusV2Decode p = .ok s →
      retentionOf s = some StdDuration.zero) ∧
    (v.completionRetentionTime = none → ∀ m, invokedV1Decode v = .ok m →
      m.completionRetentionDuration = StdDuration.zero) ∧
    (sv.completionRetentionTime = none → ∀ r, suspendedV1Decode sv = .ok r →
      r.1.completionRetentionDuration = StdDuration.zero) ∧
    (ib.completionRetentionTime = none → ∀ r, inboxedV1Decode ib = .ok r →
      r.2.completionRetentionDuration = StdDuration.zero) ∧
    (∀ ci, completedV1Decode cp = .ok ci →
      ci.completionRetentionDuration = StdDuration.max) := by
  refine ⟨?_, ?_, ?_, ?_, ?_⟩
  · intro hp s h
    unfold invocationStatusV2Decode at h
    rw [hp] at h
    obtain ⟨tp, _, h⟩ := DecodeOutcome.bind_eq_ok h
    obtain ⟨target, _, h⟩ := DecodeOutcome.bind_eq_ok h
    dsimp only at h
    obtain ⟨sp, _, h⟩ := DecodeOutcome.bind_eq_ok h
    obtain ⟨source, _, h⟩ := DecodeOutcome.bind_eq_ok h
    obtain ⟨sinks, _, h⟩ := DecodeOutcome.bind_eq_ok h
    obtain ⟨headers, _, h⟩ := DecodeOutcome.bind_eq_ok h
    cases hst : statusV2FromInt p.status <;> rw [hst] at h
    case unspecified => simp at h
    case scheduled =>
      obtain ⟨argument, _, h⟩ := DecodeOutcome.bind_eq_ok h
      obtain ⟨scp, _, h⟩ := DecodeOutcome.bind_eq_ok h
      obtain ⟨spanContext, _, h⟩ := DecodeOutcome.bind_eq_ok h
      rw [show (Option.getD none (⟨0, 0⟩ : DurationP)) = ⟨0, 0⟩ from rfl,
        durationDecode_zero] at h
      obtain ⟨ret, hret, h⟩ := DecodeOutcome.bind_eq_ok h
      injection hret with hret
      injection h with h
      subst h
      simp [retentionOf, ← hret]
    case inboxed =>
      obtain ⟨sn, _, h⟩ := DecodeOutcome.bind_eq_ok h
      obtain ⟨argument, _, h⟩ := DecodeOutcome.bind_eq_ok h
      obtain ⟨scp, _, h⟩ := DecodeOutcome.bind_eq_ok h
      obtain ⟨spanContext, _, h⟩ := DecodeOutcome.bind_eq_ok h
      rw [show (Option.getD none (⟨0, 0⟩ : DurationP)) = ⟨0, 0⟩ from rfl,
        durationDecode_zero] at h
      obtain ⟨ret, hret, h⟩ := DecodeOutcome.bind_eq_ok h
      injection hret with hret
      injection h with h
      subst h
      simp [retentionOf, ← hret]
    case invoked =>
      obtain ⟨scp, _, h⟩ := DecodeOutcome.bind_eq_ok h
      obtain ⟨spanContext, _, h⟩ := DecodeOutcome.bind_eq_ok h
      obtain ⟨pd, _, h⟩ := DecodeOutcome.bind_eq_ok h
      rw [show (Option.getD none (⟨0, 0⟩ : DurationP)) = ⟨0, 0⟩ from rfl,
        durationDecode_zero] at h
      obtain ⟨ret, hret, h⟩ := DecodeOutcome.bind_eq_ok h
      injection hret with hret
      injection h with h
      subst h
      simp [retentionOf, ← hret]
    case suspended =>
      obtain ⟨scp, _, h⟩ := DecodeOutcome.bind_eq_ok h
      obtain ⟨spanContext, _, h⟩ := DecodeOutcome.bind_eq_ok h
      obtain ⟨pd, _, h⟩ := DecodeOutcome.bind_eq_ok h
      rw [show (Option.getD none (⟨0, 0⟩ : DurationP)) = ⟨0, 0⟩ from rfl,
        durationDecode_zero] at h
      obtain ⟨ret, hret, h⟩ := DecodeOutcome.bind_eq_ok h
      injection hret with hret
      injection h with h
      subst h
      simp [retentionOf, ← hret]
    case completed =>
      obtain ⟨scp, _, h⟩ := DecodeOutcome.bind_eq_ok h
      obtain ⟨spanContext, _, h⟩ := DecodeOutcome.bind_eq_ok h
      obtain ⟨rp, _, h⟩ := DecodeOutcome.bind_eq_ok h
      obtain ⟨result, _, h⟩ := DecodeOutcome.bind_eq_ok h
      rw [show (Option.getD none (⟨0, 0⟩ : DurationP)) = ⟨0, 0⟩ from rfl,
        durationDecode_zero] at h
      obtain ⟨ret, hret, h⟩ := DecodeOutcome.bind_eq_ok h
      injection hret with hret
      injection h with h
      subst h
      simp [retentionOf, ← hret]
  · intro hv m h
    unfold invokedV1Decode at h
    rw [hv] at h
    obtain ⟨tp, _, h⟩ := DecodeOutcome.bind_eq_ok h
    obtain ⟨target, _, h⟩ := DecodeOutcome.bind_eq_ok h
    obtain ⟨pd, _, h⟩ := DecodeOutcome.bind_eq_ok h
    obtain ⟨jmp, _, h⟩ := DecodeOutcome.bind_eq_ok h
    obtain ⟨jm, _, h⟩ := DecodeOutcome.bind_eq_ok h
    obtain ⟨sinks, _, h⟩ := DecodeOutcome.bind_eq_ok h
    obtain ⟨sp, _, h⟩ := DecodeOutcome.bind_eq_ok h
    obtain ⟨source, _, h⟩ := DecodeOutcome.bind_eq_ok h
    rw [show (Option.getD none (⟨0, 0⟩ : DurationP)) = ⟨0, 0⟩ from rfl,
      durationDecode_zero] at h
    obtain ⟨ret, hret, h⟩ := DecodeOutcome.bind_eq_ok h
    injection hret with hret
    injection h with h
    subst h
    simp [← hret]
  · intro hv r h
    unfold suspendedV1Decode at h
    rw [hv] at h
    obtain ⟨tp, _, h⟩ := DecodeOutcome.bind_eq_ok h
    obtain ⟨target, _, h⟩ := DecodeOutcome.bind_eq_ok h
    obtain ⟨pd, _, h⟩ := DecodeOutcome.bind_eq_ok h
    obtain ⟨jmp, _, h⟩ := DecodeOutcome.bind_eq_ok h
    obtain ⟨jm, _, h⟩ := DecodeOutcome.bind_eq_ok h
    obtain ⟨sinks, _, h⟩ := DecodeOutcome.bind_eq_ok h
    obtain ⟨sp, _, h⟩ := DecodeOutcome.bind_eq_ok h
    obtain ⟨source, _, h⟩ := DecodeOutcome.bind_eq_ok h
    rw [show (Option.getD none (⟨0, 0⟩ : DurationP)) = ⟨0, 0⟩ from rfl,
      durationDecode_zero] at h
    obtain ⟨ret, hret, h⟩ := DecodeOutcome.bind_eq_ok h
    injection hret with hret
    injection h with h
    subst h
    simp [← hret]
  · intro hv r h
    unfold inboxedV1Decode at h
    rw [hv] at h
    obtain ⟨tp, _, h⟩ := DecodeOutcome.bind_eq_ok h
    obtain ⟨target, _, h⟩ := DecodeOutcome.bind_eq_ok h
    obtain ⟨sinks, _, h⟩ := DecodeOutcome.bind_eq_ok h
    obtain ⟨sp, _, h⟩ := DecodeOutcome.bind_eq_ok h
    obtain ⟨source, _, h⟩ := DecodeOutcome.bind_eq_ok h
    obtain ⟨scp, _, h⟩ := DecodeOutcome.bind_eq_ok h
    obtain ⟨spanContext, _, h⟩ := DecodeOutcome.bind_eq_ok h
    obtain ⟨headers, _, h⟩ := DecodeOutcome.bind_eq_ok h
    rw [show (Option.getD none (⟨0, 0⟩ : DurationP)) = ⟨0, 0⟩ from rfl,
      durationDecode_zero] at h
    obtain ⟨ret, hret, h⟩ := DecodeOutcome.bind_eq_ok h
    injection hret with hret
    injection h with h
    subst h
    simp [← hret]
  · intro ci h
    unfold completedV1Decode at h
    obtain ⟨tp, _, h⟩ := DecodeOutcome.bind_eq_ok h
    obtain ⟨target, _, h⟩ := DecodeOutcome.bind_eq_ok h
    obtain ⟨sp, _, h⟩ := DecodeOutcome.bind_eq_ok h
    obtain ⟨source, _, h⟩ := DecodeOutcome.bind_eq_ok h
    obtain ⟨rp, _, h⟩ := DecodeOutcome.bind_eq_ok h
    obtain ⟨result, _, h⟩ := DecodeOutcome.bind_eq_ok h
    injection h with h
    subst h
    rfl

/-- A concrete V2 Completed record with the `completion_retention_duration`
field absent. -/
def demoV2NoRetention : InvocationStatusV2P :=
  { status := 5
    invocationTarget := some (invocationTargetEncode (.service "a" "b"))
    source := some ⟨some .internal⟩
    spanContext := some (spanContextEncode SpanContext.default)
    creationTime := 0
    modificationTime := 0
    inboxedTransitionTime := none
    scheduledTransitionTime := none
    runningTransitionTime := none
    completedTransitionTime := none
    responseSinks := []
    argument := none
    headers := []
    executionTime := none
    completionRetentionDuration := none
    idempotencyKey := none
    inboxSequenceNumber := none
    journalLength := 0
    deploymentId := none
    serviceProtocolVersion := none
    waitingForCompletedEntries := []
    result := some (responseResultEncode (.success [])) }

/-- Witness for C8 (amended): the concrete V2 record without the retention
field decodes with retention 0, and the concrete legacy Completed record
decodes with retention `Duration::MAX`. -/
theorem missing_retention_decodes_to_default_witness :
    retentionOf (.completed
        ⟨.service "a" "b", SpanContext.default, .internal, none,
          ⟨0, 0, none, none, none, none⟩, .success [], StdDuration.zero⟩) =
      some StdDuration.zero ∧
    CompletedInvocation.completionRetentionDuration
        ⟨.service "greeter" "greet", SpanContext.default, .internal, none,
          ⟨1, 2, none, none, none, none⟩, .success [], StdDuration.max⟩ =
      StdDuration.max := by
  have h := missing_retention_decodes_to_default demoV2NoRetention
    ⟨none, [], none, none, none, 0, 0, none, none, none⟩
    ⟨none, [], none, none, none, 0, 0, [], none, none, none⟩
    ⟨none, 0, [], 0, 0, none, none, [], [], 0, none, none⟩
    (completedV1Encode demoCompleted)
  constructor
  · exact h.1 rfl
      (.completed
        ⟨.service "a" "b", SpanContext.default, .internal, none,
          ⟨0, 0, none, none, none, none⟩, .success [], StdDuration.zero⟩)
      (by rfl)
  · exact h.2.2.2.2
      ⟨.service "greeter" "greet", SpanContext.default, .internal, none,
        ⟨1, 2, none, none, none, none⟩, .success [], StdDuration.max⟩
      (by rfl)

/-- A concrete V2 Invoked record whose stored `deployment_id` does not parse
as a deployment id. -/
def demoV2BadDeployment : InvocationStatusV2P :=
  { status := 3
    invocationTarget := some (invocationTargetEncode (.service "a" "b"))
    source := some ⟨some .internal⟩
    spanContext := some (spanContextEncode SpanContext.default)
    creationTime := 0
    modificationTime := 0
    inboxedTransitionTime := none
    scheduledTransitionTime := none
    runningTransitionTime := none
    completedTransitionTime := none
    responseSinks := []
    argument := none
    headers := []
    executionTime := none
    completionRetentionDuration := none
    idempotencyKey := none
    inboxSequenceNumber := none
    journalLength := 0
    deploymentId := some "not-a-deployment-id"
    serviceProtocolVersion := some 1
    waitingForCompletedEntries := []
    result := none }

/-- C6 counterexample: record decoding can panic instead of returning a
`ConversionError`. A stored `deployment_id` that does not parse panics in
`derive_pinned_deployment` (`.expect("valid deployment id")`) — also when
reached through the full invocation-status decoder — and a stored `Duration`
within the `u64`/`u32` field ranges whose nanosecond carry overflows the
seconds panics inside `Duration::new`. -/
theorem decoders_can_panic :
    derivePinnedDeployment (some "not-a-deployment-id") (some 1) =
      .panicked "valid deployment id" ∧
    invocationStatusV2Decode demoV2BadDeployment =
      .panicked "valid deployment id" ∧
    (2 ^ 64 - 1 : Nat) < 2 ^ 64 ∧ (1000000000 : Nat) < 2 ^ 32 ∧
    durationDecode ⟨2 ^ 64 - 1, 1000000000⟩ =
      .panicked "overflow in Duration::new" := by
  refine ⟨by decide, by decide, by norm_num, by norm_num, ?_⟩
  unfold durationDecode
  rw [dif_neg (by norm_num)]

/-- C6 (amended): the cited decoders return `Ok` or a `ConversionError` for
every input except exactly two panic points: `derive_pinned_deployment`
panics ("valid deployment id") precisely when a stored deployment id is
present and unparseable, and the stored-`Duration` conversion panics
("overflow in Duration::new") precisely when the seconds plus the nanosecond
carry reach `2^64`, and never returns a `ConversionError` at all. -/
theorem decoders_total_up_to_documented_panics (d : String) (v : Option Int)
    (p : DurationP) :
    derivePinnedDeployment none v = .ok none ∧
    (parseDeploymentId d = none →
      derivePinnedDeployment (some d) v = .panicked "valid deployment id") ∧
    ((parseDeploymentId d).isSome →
      ∀ m, derivePinnedDeployment (some d) v ≠ .panicked m) ∧
    (p.secs + p.nanos / 10 ^ 9 < 2 ^ 64 →
      ∃ dur, durationDecode p = .ok dur) ∧
    (2 ^ 64 ≤ p.secs + p.nanos / 10 ^ 9 →
      durationDecode p = .panicked "overflow in Duration::new") ∧
    (∀ e, durationDecode p ≠ .err e) := by
  refine ⟨rfl, ?_, ?_, ?_, ?_, ?_⟩
  · intro h
    simp [derivePinnedDeployment, h]
  · intro h m hcontra
    obtain ⟨dd, hdd⟩ := Option.isSome_iff_exists.mp h
    simp only [derivePinnedDeployment, hdd] at hcontra
    cases v with
    | none => simp at hcontra
    | some vv =>
      cases hrepr : serviceProtocolVersionFromRepr vv with
      | none => simp [hrepr] at hcontra
      | some pv => simp [hrepr] at hcontra
  · intro h
    unfold durationDecode
    rw [dif_pos h]
    exact ⟨_, rfl⟩
  · intro h
    unfold durationDecode
    rw [dif_neg (not_lt.mpr h)]
  · intro e he
    unfold durationDecode at he
    by_cases hcond : p.secs + p.nanos / 10 ^ 9 < 2 ^ 64
    · rw [dif_pos hcond] at he
      simp at he
    · rw [dif_neg hcond] at he
      simp at he

/-- Witness for C6 (amended): a concrete unparseable deployment id panics and
a concrete in-range duration decodes. -/
theorem decoders_total_up_to_documented_panics_witness :
    derivePinnedDeployment (some "x") (some 1) =
      .panicked "valid deployment id" ∧
    ∃ dur, durationDecode ⟨3, 5⟩ = .ok dur := by
  have h := decoders_total_up_to_documented_panics "x" (some 1) ⟨3, 5⟩
  exact ⟨h.2.1 (by rfl), h.2.2.2.1 (by norm_num)⟩

end Restate
